import Mathlib

/-!
# Verification of the market-simulator ledger engine

Shallow embedding of `src/marketsimcode.py` (`compute_portvals` and its inner
helpers `calculate_data_2` and `edit_data_3_rows`), together with the parts of
the price-provider interface (`util.get_data`) that the engine relies on.

Modelling conventions:
* calendar dates are natural numbers (one `Nat` per calendar day; the code's
  date strings parse to such values, string parsing itself is not modelled);
* all numeric entries (prices, shares, cash) are exact rationals `ℚ`,
  standing for the Python floats under exact arithmetic;
* a pandas `DataFrame` indexed by dates is a `Frame`: its index list, its
  symbol-column entries, and its `Cash` column entries;
* Python exceptions are values of `SimError`; a raising computation returns
  the mutated local state together with `some` error, mirroring the fact that
  mutations preceding the raise survive it.
-/

/-- The failure modes of the computation.  `indexError` and `keyError` are the
pandas/numpy exceptions the source code can actually raise (positional access
to an empty frame, label access for a missing date).  The remaining
constructors transcribe the error taxonomy named by the specification
(`InvalidOrderError`, `EmptyOrderListError`, `MissingPriceDataError`,
`UnknownSymbolError`); only `unknownSymbolError` is ever produced, by the
spec-modelled price provider. -/
inductive SimError where
  | indexError : SimError
  | keyError : Nat → SimError
  | unknownSymbolError : String → SimError
  | invalidOrderError : SimError
  | emptyOrderListError : SimError
  | missingPriceDataError : SimError
deriving DecidableEq, Repr

/-- One row of the orders dataframe: columns `Date`, `Symbol`, `Order`
(the side, a free-form string in the code), `Shares`. -/
structure OrderRec where
  Date : Nat
  Symbol : String
  Order : String
  Shares : ℚ
deriving DecidableEq, Repr

/-- A date-indexed pandas frame as used by `compute_portvals`: the date index,
the entries of the symbol columns, and the entries of the `Cash` column.
Entries are total functions; only the cells at an index date and at a traded
symbol are ever read. -/
structure Frame where
  days : List Nat
  val : Nat → String → ℚ
  cash : Nat → ℚ

/-- The external price provider behind `util.get_data`: its trading calendar,
its closing prices, and the universe of symbols it can serve. -/
structure PriceProvider where
  tradingDays : List Nat
  price : Nat → String → ℚ
  symUniverse : List String

/-- The objects live during a `compute_portvals` call: the caller-owned
orders dataframe and price provider, and the three local frames
`data_1` (prices), `data_2` (per-day deltas), `data_3` (running ledger). -/
structure PVState where
  orders : List OrderRec
  provider : PriceProvider
  data_1 : Frame
  data_2 : Frame
  data_3 : Frame

/-- The trading days of `p` that fall inside the closed range `[lo, hi]`
(the index that `get_data(symbols, pd.date_range(lo, hi))` produces). -/
def trading_days_in (p : PriceProvider) (lo hi : Nat) : List Nat :=
  p.tradingDays.filter (fun d => decide (lo ≤ d) && decide (d ≤ hi))

/-- Modelled from the spec: `util.get_data` (the Price Provider) is not part
of this repository's sources.  Per the spec (§4.4, §7) it returns one closing
price per requested symbol per trading day of the requested range, fully
filled by forward/backward fill before the ledger engine sees it, and a
request for a symbol outside its universe fails (`UnknownSymbolError`).
The returned frame initially has no `Cash` column; its `cash` field is the
all-zero placeholder until the engine assigns one. -/
def get_data (p : PriceProvider) (symbols : List String) (lo hi : Nat) :
    Except SimError Frame :=
  match symbols.find? (fun s => !(p.symUniverse.contains s)) with
  | some s => .error (.unknownSymbolError s)
  | none => .ok { days := trading_days_in p lo hi, val := p.price, cash := fun _ => 0 }

/-- `pandas.Series.unique`: first occurrences, in order of appearance. -/
def pdUnique (seen : List String) : List String → List String
  | [] => []
  | s :: rest =>
      if s ∈ seen then pdUnique seen rest else s :: pdUnique (s :: seen) rest

/-- `list(orders_df['Symbol'].unique())`. -/
def unique_symbols (orders_df : List OrderRec) : List String :=
  pdUnique [] (orders_df.map (fun o => o.Symbol))

/-- Inner helper `calculate_data_2(df, df_2, date, symbol, shares, impact,
commission, buy_or_sell)` of `compute_portvals`, with `df = data_2` and
`df_2 = data_1` taken from the state.  Its first statement adds
`(-buy_or_sell) * shares` to the position cell `(date, symbol)` of `data_2`;
its second adds `data_1[date, symbol] * shares * (buy_or_sell - impact)
- commission` to the `Cash` cell of `data_2` at `date`.  Each `.loc` access
raises a `KeyError` when `date` is absent from the accessed frame's index,
before that statement writes anything. -/
def calculate_data_2 (st : PVState) (date : Nat) (symbol : String)
    (shares impact commission buy_or_sell : ℚ) : PVState × Option SimError :=
  if date ∈ st.data_2.days then
    let st' := { st with data_2 := { st.data_2 with
      val := fun d s =>
        if d = date ∧ s = symbol then st.data_2.val d s + (-buy_or_sell) * shares
        else st.data_2.val d s } }
    if date ∈ st'.data_1.days then
      ({ st' with data_2 := { st'.data_2 with
          cash := fun d =>
            if d = date then
              st'.data_2.cash d
                + st'.data_1.val date symbol * shares * (buy_or_sell - impact)
                - commission
            else st'.data_2.cash d } }, none)
    else (st', some (.keyError date))
  else (st, some (.keyError date))

/-- One `.apply(..., axis = 1)` pass of `compute_portvals`: fold
`calculate_data_2` with a fixed `buy_or_sell` flag over a filtered order
list, row by row; a raise stops the pass, keeping the mutations made so far. -/
def apply_orders (impact commission buy_or_sell : ℚ) :
    PVState → List OrderRec → PVState × Option SimError
  | st, [] => (st, none)
  | st, o :: rest =>
      match calculate_data_2 st o.Date o.Symbol o.Shares impact commission buy_or_sell with
      | (st', none) => apply_orders impact commission buy_or_sell st' rest
      | (st', some e) => (st', some e)

/-- The `buy_or_sell` flag the source passes for an order: `1` for the rows of
`sell_orders_df` (side equal to `SELL`), `-1` for every other row. -/
def order_b (o : OrderRec) : ℚ := if o.Order == "SELL" then 1 else -1

/-- Applying a mixed list of orders, each with its own flag; the two
constant-flag passes of the source over `sell_orders_df` then
`buy_orders_df` compose to this fold over the concatenated list. -/
def apply_order_list (impact commission : ℚ) :
    PVState → List OrderRec → PVState × Option SimError
  | st, [] => (st, none)
  | st, o :: rest =>
      match calculate_data_2 st o.Date o.Symbol o.Shares impact commission (order_b o) with
      | (st', none) => apply_order_list impact commission st' rest
      | (st', some e) => (st', some e)

/-- Inner helper `edit_data_3_rows(df, df_2, index)` with `df = data_3`,
`df_2 = data_2`: row `dcur` of `df` becomes row `dcur` of `df_2` plus row
`dprev` of `df` (`dprev` is the index's previous date, position `index - 1`). -/
def edit_data_3_rows (df df_2 : Frame) (dprev dcur : Nat) : Frame :=
  { df with
    val := fun d s =>
      if d = dcur then df_2.val dcur s + df.val dprev s else df.val d s,
    cash := fun d =>
      if d = dcur then df_2.cash dcur + df.cash dprev else df.cash d }

/-- The loop `for index in np.arange(1, len(data_3)): edit_data_3_rows(...)`,
walking the remaining dates of the index with the previous date at hand. -/
def data_3_loop (df_2 : Frame) : Frame → Nat → List Nat → Frame
  | df, _, [] => df
  | df, dprev, d :: rest => data_3_loop df_2 (edit_data_3_rows df df_2 dprev d) d rest

/-- `(data_1 * data_3).sum(axis = 1)`: per date, the sum over the shared
columns (the traded symbols and `Cash`) of the elementwise products. -/
def port_vals_series (syms : List String) (data_1 data_3 : Frame) :
    List (Nat × ℚ) :=
  data_1.days.map (fun d =>
    (d, (syms.map (fun s => data_1.val d s * data_3.val d s)).sum
        + data_1.cash d * data_3.cash d))

/-- The state at entry of `compute_portvals`: the caller's orders and
provider; the local frames do not exist yet (all-empty placeholders). -/
def mkInitState (orders_df : List OrderRec) (p : PriceProvider) : PVState :=
  { orders := orders_df, provider := p,
    data_1 := { days := [], val := fun _ _ => 0, cash := fun _ => 0 },
    data_2 := { days := [], val := fun _ _ => 0, cash := fun _ => 0 },
    data_3 := { days := [], val := fun _ _ => 0, cash := fun _ => 0 } }

/-- The body of `compute_portvals`, line by line, threading the object state.
An empty orders frame makes `orders_df.values[0, 0]` raise `IndexError`; an
empty price index makes `data_3.iloc[0, -1] = start_val` raise `IndexError`
(at that point `data_3` already has its zeroed `Cash` column but still holds
the fetched prices in its symbol columns); each order row is applied by
`calculate_data_2`, sell rows first with flag `1`, then every other row with
flag `-1`; afterwards row `0` of `data_3` is seeded from row `0` of `data_2`
plus the starting cash, the remaining rows are accumulated by
`edit_data_3_rows`, and the portfolio value series is the row sum of
`data_1 * data_3`. -/
def run_portvals (st0 : PVState) (start_val commission impact : ℚ) :
    PVState × Except SimError (List (Nat × ℚ)) :=
  match st0.orders with
  | [] => (st0, .error .indexError)
  | o0 :: orest =>
    let begin_date := o0.Date
    let end_date := (orest.getLastD o0).Date
    let syms := unique_symbols st0.orders
    match get_data st0.provider syms (begin_date - 1) end_date with
    | .error e => (st0, .error e)
    | .ok f1 =>
      let st1 := { st0 with data_1 := { f1 with cash := fun _ => 1 } }
      match get_data st1.provider syms (begin_date - 1) end_date with
      | .error e => (st1, .error e)
      | .ok f2 =>
        let st2 := { st1 with data_2 := { f2 with
          cash := fun _ => 0, val := fun _ _ => 0 } }
        match get_data st2.provider syms (begin_date - 1) end_date with
        | .error e => (st2, .error e)
        | .ok f3 =>
          match f3.days with
          | [] => ({ st2 with data_3 := { f3 with cash := fun _ => 0 } },
                   .error .indexError)
          | d0 :: drest =>
            let st3 := { st2 with data_3 := { f3 with
              val := fun _ _ => 0,
              cash := fun d => if d = d0 then start_val else 0 } }
            let sells := st3.orders.filter (fun o => o.Order == "SELL")
            match apply_orders impact commission 1 st3 sells with
            | (st4, some e) => (st4, .error e)
            | (st4, none) =>
              let buys := st4.orders.filter (fun o => !(o.Order == "SELL"))
              match apply_orders impact commission (-1) st4 buys with
              | (st5, some e) => (st5, .error e)
              | (st5, none) =>
                let st6 := { st5 with data_3 := { st5.data_3 with
                  val := fun d s =>
                    if d = d0 then st5.data_2.val d0 s else st5.data_3.val d s,
                  cash := fun d =>
                    if d = d0 then st5.data_3.cash d0 + st5.data_2.cash d0
                    else st5.data_3.cash d } }
                let st7 :=
                  { st6 with data_3 := data_3_loop st6.data_2 st6.data_3 d0 drest }
                (st7, .ok (port_vals_series syms st7.data_1 st7.data_3))

/-- `compute_portvals(orders_df, start_val, commission, impact)`: the
portfolio value series, or the raised error. -/
def compute_portvals (p : PriceProvider) (orders_df : List OrderRec)
    (start_val commission impact : ℚ) : Except SimError (List (Nat × ℚ)) :=
  (run_portvals (mkInitState orders_df p) start_val commission impact).2

/-- Boolean strict-ascending test for a date index. -/
def sortedLt : List Nat → Bool
  | [] => true
  | [_] => true
  | a :: b :: t => decide (a < b) && sortedLt (b :: t)

/-! ## List helpers -/

lemma sortedLt_chain' : ∀ l : List Nat, sortedLt l = true → List.Chain' (· < ·) l
  | [], _ => List.chain'_nil
  | [_], _ => List.chain'_singleton _
  | a :: b :: t, h => by
      rw [sortedLt, Bool.and_eq_true, decide_eq_true_eq] at h
      exact List.Chain'.cons h.1 (sortedLt_chain' (b :: t) h.2)

lemma pdUnique_subset : ∀ (L seen : List String) (s : String), s ∈ pdUnique seen L → s ∈ L
  | [], _, _, h => by simp [pdUnique] at h
  | x :: rest, seen, s, h => by
      rw [pdUnique] at h
      by_cases hx : x ∈ seen
      · rw [if_pos hx] at h
        exact List.mem_cons_of_mem _ (pdUnique_subset rest seen s h)
      · rw [if_neg hx] at h
        rcases List.mem_cons.1 h with h | h
        · subst h; exact List.mem_cons_self _ _
        · exact List.mem_cons_of_mem _ (pdUnique_subset rest (x :: seen) s h)

lemma sum_map_filter_partition {α : Type} (p q : α → Bool) (f : α → ℚ) :
    ∀ L : List α,
      (((L.filter p).filter q).map f).sum + (((L.filter (fun o => !p o)).filter q).map f).sum
        = ((L.filter q).map f).sum := by
  intro L
  induction L with
  | nil => simp
  | cons o rest ih =>
      cases hp : p o <;> cases hq : q o <;>
        simp [List.filter_cons, hp, hq, -List.filter_filter] <;> linarith [ih]

lemma ite_single_sum (a : Nat) (x : ℚ) (S : Nat → ℚ) :
    ∀ T : List Nat, T.Nodup →
      (T.map (fun d => if a = d then x + S d else S d)).sum
        = (if a ∈ T then x else 0) + (T.map S).sum := by
  intro T
  induction T with
  | nil => simp
  | cons t T ih =>
      intro hT
      rcases List.nodup_cons.1 hT with ⟨ht, hT'⟩
      by_cases ha : a = t
      · subst ha
        have hrest : T.map (fun d => if a = d then x + S d else S d) = T.map S :=
          List.map_congr_left (fun d hd => if_neg (fun had => ht (by rw [had]; exact hd)))
        simp [hrest, ht]
        ring
      · have hmm : a ∈ t :: T ↔ a ∈ T := by simp [List.mem_cons, ha]
        simp only [List.map_cons, List.sum_cons, if_neg ha, ih hT', hmm]
        split <;> ring

lemma sum_over_days (g : OrderRec → ℚ) :
    ∀ (M : List OrderRec) (T : List Nat), T.Nodup →
      (T.map (fun d => ((M.filter (fun o => decide (o.Date = d))).map g).sum)).sum
        = ((M.filter (fun o => decide (o.Date ∈ T))).map g).sum := by
  intro M
  induction M with
  | nil => simp
  | cons o M ih =>
      intro T hT
      have hsplit : ∀ d : Nat,
          ((List.filter (fun o' => decide (o'.Date = d)) (o :: M)).map g).sum
            = if o.Date = d then g o + ((M.filter (fun o' => decide (o'.Date = d))).map g).sum
              else ((M.filter (fun o' => decide (o'.Date = d))).map g).sum := by
        intro d
        by_cases hd : o.Date = d <;> simp [List.filter_cons, hd]
      rw [List.map_congr_left (fun d _ => hsplit d), ite_single_sum o.Date (g o) _ T hT,
        ih T hT]
      by_cases hmem : o.Date ∈ T <;> simp [List.filter_cons, hmem]

/-! ## `calculate_data_2` and the apply passes -/

lemma calculate_fields (st : PVState) (date : Nat) (symbol : String)
    (sh i c b : ℚ) :
    ((calculate_data_2 st date symbol sh i c b).1.orders = st.orders)
    ∧ ((calculate_data_2 st date symbol sh i c b).1.provider = st.provider)
    ∧ ((calculate_data_2 st date symbol sh i c b).1.data_1 = st.data_1)
    ∧ ((calculate_data_2 st date symbol sh i c b).1.data_3 = st.data_3)
    ∧ ((calculate_data_2 st date symbol sh i c b).1.data_2.days = st.data_2.days) := by
  by_cases h2 : date ∈ st.data_2.days <;> by_cases h1 : date ∈ st.data_1.days <;>
    simp [calculate_data_2, h1, h2]

lemma calculate_ok (st : PVState) (date : Nat) (symbol : String) (sh i c b : ℚ)
    (h2 : date ∈ st.data_2.days) (h1 : date ∈ st.data_1.days) :
    calculate_data_2 st date symbol sh i c b
      = ({ st with data_2 := { st.data_2 with
            val := fun d s =>
              if d = date ∧ s = symbol then st.data_2.val d s + (-b) * sh
              else st.data_2.val d s,
            cash := fun d =>
              if d = date then
                st.data_2.cash d + st.data_1.val date symbol * sh * (b - i) - c
              else st.data_2.cash d } }, none) := by
  simp [calculate_data_2, h1, h2]

lemma apply_order_list_fields (i c : ℚ) :
    ∀ (L : List OrderRec) (st : PVState),
      ((apply_order_list i c st L).1.orders = st.orders)
      ∧ ((apply_order_list i c st L).1.provider = st.provider)
      ∧ ((apply_order_list i c st L).1.data_1 = st.data_1)
      ∧ ((apply_order_list i c st L).1.data_3 = st.data_3)
      ∧ ((apply_order_list i c st L).1.data_2.days = st.data_2.days) := by
  intro L
  induction L with
  | nil => intro st; simp [apply_order_list]
  | cons o rest ih =>
      intro st
      have hf := calculate_fields st o.Date o.Symbol o.Shares i c (order_b o)
      rcases hc : calculate_data_2 st o.Date o.Symbol o.Shares i c (order_b o) with ⟨st', e⟩
      rw [hc] at hf
      rcases e with _ | e <;> rw [apply_order_list, hc]
      · obtain ⟨i1, i2, i3, i4, i5⟩ := ih st'
        exact ⟨i1.trans hf.1, i2.trans hf.2.1, i3.trans hf.2.2.1, i4.trans hf.2.2.2.1,
          i5.trans hf.2.2.2.2⟩
      · exact hf

lemma apply_order_list_cons_none (i c : ℚ) (st st' : PVState) (o : OrderRec)
    (rest : List OrderRec)
    (h : calculate_data_2 st o.Date o.Symbol o.Shares i c (order_b o) = (st', none)) :
    apply_order_list i c st (o :: rest) = apply_order_list i c st' rest := by
  rw [apply_order_list, h]

lemma apply_order_list_cons_some (i c : ℚ) (st st' : PVState) (o : OrderRec)
    (rest : List OrderRec) (e : SimError)
    (h : calculate_data_2 st o.Date o.Symbol o.Shares i c (order_b o) = (st', some e)) :
    apply_order_list i c st (o :: rest) = (st', some e) := by
  rw [apply_order_list, h]

lemma apply_order_list_ok (i c : ℚ) :
    ∀ (L : List OrderRec) (st : PVState),
      (∀ o ∈ L, o.Date ∈ st.data_2.days) → (∀ o ∈ L, o.Date ∈ st.data_1.days) →
      ((apply_order_list i c st L).2 = none)
      ∧ (∀ d s, (apply_order_list i c st L).1.data_2.val d s
          = st.data_2.val d s
            + ((L.filter (fun o => decide (o.Date = d) && decide (o.Symbol = s))).map
                (fun o => -(order_b o) * o.Shares)).sum)
      ∧ (∀ d, (apply_order_list i c st L).1.data_2.cash d
          = st.data_2.cash d
            + ((L.filter (fun o => decide (o.Date = d))).map
                (fun o => st.data_1.val o.Date o.Symbol * o.Shares * (order_b o - i) - c)).sum) := by
  intro L
  induction L with
  | nil => intro st _ _; simp [apply_order_list]
  | cons o rest ih =>
      intro st h2 h1
      have ho2 : o.Date ∈ st.data_2.days := h2 o (List.mem_cons_self _ _)
      have ho1 : o.Date ∈ st.data_1.days := h1 o (List.mem_cons_self _ _)
      have hc := calculate_ok st o.Date o.Symbol o.Shares i c (order_b o) ho2 ho1
      rw [apply_order_list_cons_none i c st _ o rest hc]
      obtain ⟨hnone, hval, hcash⟩ := ih
        { st with data_2 := { st.data_2 with
            val := fun d s =>
              if d = o.Date ∧ s = o.Symbol then
                st.data_2.val d s + (-(order_b o)) * o.Shares
              else st.data_2.val d s,
            cash := fun d =>
              if d = o.Date then
                st.data_2.cash d
                  + st.data_1.val o.Date o.Symbol * o.Shares * (order_b o - i) - c
              else st.data_2.cash d } }
        (fun o' ho' => h2 o' (List.mem_cons_of_mem _ ho'))
        (fun o' ho' => h1 o' (List.mem_cons_of_mem _ ho'))
      refine ⟨hnone, ?_, ?_⟩
      · intro d s
        rw [hval d s]
        by_cases hd : d = o.Date
        · subst hd
          by_cases hs : s = o.Symbol
          · subst hs
            simp [List.filter_cons]
            ring
          · have hs' : ¬ (o.Symbol = s) := fun h => hs h.symm
            simp [List.filter_cons, hs, hs']
        · have hd' : ¬ (o.Date = d) := fun h => hd h.symm
          simp [List.filter_cons, hd, hd']
      · intro d
        rw [hcash d]
        by_cases hd : d = o.Date
        · subst hd
          simp [List.filter_cons]
          ring
        · have hd' : ¬ (o.Date = d) := fun h => hd h.symm
          simp [List.filter_cons, hd, hd']

lemma apply_order_list_stops (i c : ℚ) :
    ∀ (L : List OrderRec) (st : PVState),
      (∃ o ∈ L, o.Date ∉ st.data_2.days) →
      ∃ e, (apply_order_list i c st L).2 = some e := by
  intro L
  induction L with
  | nil => intro st h; rcases h with ⟨o, ho, _⟩; cases ho
  | cons o rest ih =>
      intro st h
      by_cases ho2 : o.Date ∈ st.data_2.days
      · by_cases ho1 : o.Date ∈ st.data_1.days
        · have hc := calculate_ok st o.Date o.Symbol o.Shares i c (order_b o) ho2 ho1
          rw [apply_order_list_cons_none i c st _ o rest hc]
          rcases h with ⟨o', ho', hbad⟩
          rcases List.mem_cons.1 ho' with rfl | ho'
          · exact absurd ho2 hbad
          · exact ih _ ⟨o', ho', hbad⟩
        · have hc : calculate_data_2 st o.Date o.Symbol o.Shares i c (order_b o)
              = ({ st with data_2 := { st.data_2 with
                    val := fun d s =>
                      if d = o.Date ∧ s = o.Symbol then
                        st.data_2.val d s + (-(order_b o)) * o.Shares
                      else st.data_2.val d s } },
                  some (.keyError o.Date)) := by
            simp [calculate_data_2, ho2, ho1]
          exact ⟨_, by rw [apply_order_list_cons_some i c st _ o rest _ hc]⟩
      · have hc : calculate_data_2 st o.Date o.Symbol o.Shares i c (order_b o)
            = (st, some (.keyError o.Date)) := by
          rw [calculate_data_2, if_neg ho2]
        exact ⟨_, by rw [apply_order_list_cons_some i c st st o rest _ hc]⟩

lemma apply_orders_eq_list (i c b : ℚ) :
    ∀ (L : List OrderRec) (st : PVState), (∀ o ∈ L, order_b o = b) →
      apply_orders i c b st L = apply_order_list i c st L := by
  intro L
  induction L with
  | nil => intro st _; rw [apply_orders, apply_order_list]
  | cons o rest ih =>
      intro st hb
      rw [apply_orders, apply_order_list, hb o (List.mem_cons_self _ _)]
      rcases calculate_data_2 st o.Date o.Symbol o.Shares i c b with ⟨st', _ | e⟩
      · exact ih st' (fun o' ho' => hb o' (List.mem_cons_of_mem _ ho'))
      · rfl

/-! ## The `data_3` accumulation loop -/

lemma data_3_loop_days (df_2 : Frame) :
    ∀ (rest : List Nat) (df : Frame) (dprev : Nat),
      (data_3_loop df_2 df dprev rest).days = df.days := by
  intro rest
  induction rest with
  | nil => intro df dprev; rw [data_3_loop]
  | cons d rest ih => intro df dprev; rw [data_3_loop]; rw [ih]; rfl

lemma data_3_loop_untouched (df_2 : Frame) :
    ∀ (rest : List Nat) (df : Frame) (dprev : Nat) (d : Nat), d ∉ rest →
      ((data_3_loop df_2 df dprev rest).cash d = df.cash d)
      ∧ (∀ s, (data_3_loop df_2 df dprev rest).val d s = df.val d s) := by
  intro rest
  induction rest with
  | nil => intro df dprev d _; rw [data_3_loop]; exact ⟨rfl, fun _ => rfl⟩
  | cons d1 rest ih =>
      intro df dprev d hd
      have hd1 : d ≠ d1 := fun h => hd (h ▸ List.mem_cons_self _ _)
      have hdrest : d ∉ rest := fun h => hd (List.mem_cons_of_mem _ h)
      rw [data_3_loop]
      obtain ⟨hcash, hval⟩ := ih (edit_data_3_rows df df_2 dprev d1) d1 d hdrest
      refine ⟨?_, fun s => ?_⟩
      · rw [hcash]; simp [edit_data_3_rows, hd1]
      · rw [hval]; simp [edit_data_3_rows, hd1]

lemma data_3_loop_rows (df_2 : Frame) :
    ∀ (rest : List Nat) (df : Frame) (dprev : Nat),
      List.Chain' (· < ·) (dprev :: rest) →
      ∀ d ∈ rest,
        ((data_3_loop df_2 df dprev rest).cash d
          = df.cash dprev + ((rest.filter (fun x => decide (x ≤ d))).map df_2.cash).sum)
        ∧ (∀ s, (data_3_loop df_2 df dprev rest).val d s
          = df.val dprev s
            + ((rest.filter (fun x => decide (x ≤ d))).map (fun x => df_2.val x s)).sum) := by
  intro rest
  induction rest with
  | nil => intro df dprev _ d hd; cases hd
  | cons d1 rest ih =>
      intro df dprev hchain d hd
      have hpw : List.Pairwise (· < ·) (dprev :: d1 :: rest) :=
        List.chain'_iff_pairwise.1 hchain
      have hpw1 : List.Pairwise (· < ·) (d1 :: rest) := (List.pairwise_cons.1 hpw).2
      have hgt : ∀ x ∈ rest, d1 < x := (List.pairwise_cons.1 hpw1).1
      have hchain1 : List.Chain' (· < ·) (d1 :: rest) := List.chain'_iff_pairwise.2 hpw1
      have hd1rest : d1 ∉ rest := fun h => lt_irrefl d1 (hgt d1 h)
      rw [data_3_loop]
      rcases List.mem_cons.1 hd with rfl | hdrest
      · -- the first date of the walk: row `d` is written once and never revisited
        obtain ⟨hcash, hval⟩ :=
          data_3_loop_untouched df_2 rest (edit_data_3_rows df df_2 dprev d) d d hd1rest
        have hfil : rest.filter (fun x => decide (x ≤ d)) = [] := by
          apply List.filter_eq_nil_iff.2
          intro x hx
          simp only [decide_eq_true_eq]
          exact not_le.2 (hgt x hx)
        refine ⟨?_, fun s => ?_⟩
        · rw [hcash]; simp [edit_data_3_rows, hfil]; ring
        · rw [hval]; simp [edit_data_3_rows, hfil]; ring
      · -- a later date: step the base frame and use the walk of the tail
        obtain ⟨hcash, hval⟩ := ih (edit_data_3_rows df df_2 dprev d1) d1 hchain1 d hdrest
        have hd1le : d1 ≤ d := le_of_lt (hgt d hdrest)
        have hfil : (d1 :: rest).filter (fun x => decide (x ≤ d))
            = d1 :: rest.filter (fun x => decide (x ≤ d)) := by
          rw [List.filter_cons]
          simp [hd1le]
        refine ⟨?_, fun s => ?_⟩
        · rw [hcash]; simp [edit_data_3_rows, hfil]; ring
        · rw [hval]; simp [edit_data_3_rows, hfil]; ring

/-! ## Cumulative characterization of the run -/

/-- The cash delta that `calculate_data_2` books for one order row: that
day's price times shares times `(flag - impact)`, minus the commission
(flag `1` for `SELL` rows, `-1` for all others). -/
def code_delta_cash (p : PriceProvider) (commission impact : ℚ) (o : OrderRec) : ℚ :=
  p.price o.Date o.Symbol * o.Shares * (order_b o - impact) - commission

/-- Running cash on day `d`: the starting cash plus the booked cash deltas
of every order dated on or before `d`. -/
def cum_cash (p : PriceProvider) (orders : List OrderRec)
    (start_val commission impact : ℚ) (d : Nat) : ℚ :=
  start_val + ((orders.filter (fun o => decide (o.Date ≤ d))).map
    (code_delta_cash p commission impact)).sum

/-- Running position in symbol `s` on day `d`: the booked position deltas
`(-flag) * shares` of every order in `s` dated on or before `d`. -/
def cum_pos (orders : List OrderRec) (d : Nat) (s : String) : ℚ :=
  ((orders.filter (fun o => decide (o.Date ≤ d) && decide (o.Symbol = s))).map
    (fun o => -(order_b o) * o.Shares)).sum

lemma sum_map_add (A B : Nat → ℚ) :
    ∀ T : List Nat, (T.map (fun x => A x + B x)).sum = (T.map A).sum + (T.map B).sum := by
  intro T
  induction T with
  | nil => simp
  | cons t T ih => simp [ih]; ring

lemma run_portvals_unfold (p : PriceProvider) (o0 : OrderRec) (orest : List OrderRec)
    (start_val commission impact : ℚ) (d0 : Nat) (drest : List Nat)
    (hfind : (unique_symbols (o0 :: orest)).find?
        (fun s => !(p.symUniverse.contains s)) = none)
    (hDeq : trading_days_in p (o0.Date - 1) (orest.getLastD o0).Date = d0 :: drest) :
    run_portvals (mkInitState (o0 :: orest) p) start_val commission impact
      = (match apply_orders impact commission 1
            { orders := o0 :: orest, provider := p,
              data_1 := { days := d0 :: drest, val := p.price, cash := fun _ => 1 },
              data_2 := { days := d0 :: drest, val := fun _ _ => 0, cash := fun _ => 0 },
              data_3 := { days := d0 :: drest, val := fun _ _ => 0,
                          cash := fun d => if d = d0 then start_val else 0 } }
            ((o0 :: orest).filter (fun o => o.Order == "SELL")) with
        | (st4, some e) => (st4, .error e)
        | (st4, none) =>
          match apply_orders impact commission (-1) st4
              (st4.orders.filter (fun o => !(o.Order == "SELL"))) with
          | (st5, some e) => (st5, .error e)
          | (st5, none) =>
            (⟨st5.orders, st5.provider, st5.data_1, st5.data_2,
              data_3_loop st5.data_2
                { st5.data_3 with
                  val := fun d s =>
                    if d = d0 then st5.data_2.val d0 s else st5.data_3.val d s,
                  cash := fun d =>
                    if d = d0 then st5.data_3.cash d0 + st5.data_2.cash d0
                    else st5.data_3.cash d } d0 drest⟩,
             .ok (port_vals_series (unique_symbols (o0 :: orest))
                    st5.data_1
                    (data_3_loop st5.data_2
                      { st5.data_3 with
                        val := fun d s =>
                          if d = d0 then st5.data_2.val d0 s else st5.data_3.val d s,
                        cash := fun d =>
                          if d = d0 then st5.data_3.cash d0 + st5.data_2.cash d0
                          else st5.data_3.cash d } d0 drest)))) := by
  simp only [run_portvals, mkInitState, get_data, hfind, hDeq]

theorem run_portvals_char (p : PriceProvider) (o0 : OrderRec) (orest : List OrderRec)
    (start_val commission impact : ℚ)
    (htd : sortedLt p.tradingDays = true)
    (hsym : ∀ o ∈ o0 :: orest, o.Symbol ∈ p.symUniverse)
    (hdate : ∀ o ∈ o0 :: orest,
      o.Date ∈ trading_days_in p (o0.Date - 1) (orest.getLastD o0).Date) :
    ((run_portvals (mkInitState (o0 :: orest) p) start_val commission impact).2
      = .ok ((trading_days_in p (o0.Date - 1) (orest.getLastD o0).Date).map (fun d =>
          (d, ((unique_symbols (o0 :: orest)).map (fun s =>
                p.price d s * cum_pos (o0 :: orest) d s)).sum
              + cum_cash p (o0 :: orest) start_val commission impact d))))
    ∧ (∀ d ∈ trading_days_in p (o0.Date - 1) (orest.getLastD o0).Date,
        ((run_portvals (mkInitState (o0 :: orest) p) start_val commission impact).1.data_3.cash d
          = cum_cash p (o0 :: orest) start_val commission impact d)
        ∧ (∀ s,
            (run_portvals (mkInitState (o0 :: orest) p) start_val commission impact).1.data_3.val d s
              = cum_pos (o0 :: orest) d s)) := by
  have hfind : (unique_symbols (o0 :: orest)).find?
      (fun s => !(p.symUniverse.contains s)) = none := by
    apply List.find?_eq_none.2
    intro s hs
    rcases List.mem_map.1 (pdUnique_subset _ _ s hs) with ⟨o, ho, rfl⟩
    simp only [Bool.not_eq_true, Bool.not_eq_false, Bool.not_not]
    simp
    exact hsym o ho
  have hD0 : o0.Date ∈ trading_days_in p (o0.Date - 1) (orest.getLastD o0).Date :=
    hdate o0 (List.mem_cons_self _ _)
  cases hDeq : trading_days_in p (o0.Date - 1) (orest.getLastD o0).Date with
  | nil => rw [hDeq] at hD0; cases hD0
  | cons d0 drest =>
  rw [hDeq] at hdate
  have hpwD : List.Pairwise (· < ·) (d0 :: drest) := by
    have h1 : List.Pairwise (· < ·) p.tradingDays :=
      List.chain'_iff_pairwise.1 (sortedLt_chain' _ htd)
    have h2 : List.Pairwise (· < ·)
        (trading_days_in p (o0.Date - 1) (orest.getLastD o0).Date) := by
      rw [trading_days_in]
      exact h1.sublist (List.filter_sublist _)
    rw [hDeq] at h2
    exact h2
  have hgt0 : ∀ x ∈ drest, d0 < x := (List.pairwise_cons.1 hpwD).1
  have hd0drest : d0 ∉ drest := fun h => lt_irrefl d0 (hgt0 d0 h)
  have hnodupD : (d0 :: drest).Nodup := hpwD.imp (fun hab => Nat.ne_of_lt hab)
  have hchainD : List.Chain' (· < ·) (d0 :: drest) := List.chain'_iff_pairwise.2 hpwD
  have hbS : ∀ o ∈ (o0 :: orest).filter (fun o => o.Order == "SELL"), order_b o = 1 := by
    intro o ho
    have h := (List.mem_filter.1 ho).2
    simp [order_b, h]
  have hbB : ∀ o ∈ (o0 :: orest).filter (fun o => !(o.Order == "SELL")),
      order_b o = -1 := by
    intro o ho
    have h := (List.mem_filter.1 ho).2
    rw [Bool.not_eq_true'] at h
    simp [order_b, h]
  have hrun := run_portvals_unfold p o0 orest start_val commission impact d0 drest hfind hDeq
  rw [apply_orders_eq_list impact commission 1
    ((o0 :: orest).filter (fun o => o.Order == "SELL")) _ hbS] at hrun
  have hokS := apply_order_list_ok impact commission
    ((o0 :: orest).filter (fun o => o.Order == "SELL"))
    { orders := o0 :: orest, provider := p,
      data_1 := { days := d0 :: drest, val := p.price, cash := fun _ => 1 },
      data_2 := { days := d0 :: drest, val := fun _ _ => 0, cash := fun _ => 0 },
      data_3 := { days := d0 :: drest, val := fun _ _ => 0,
                  cash := fun d => if d = d0 then start_val else 0 } }
    (fun o ho => hdate o (List.mem_of_mem_filter ho))
    (fun o ho => hdate o (List.mem_of_mem_filter ho))
  have hfieldsS := apply_order_list_fields impact commission
    ((o0 :: orest).filter (fun o => o.Order == "SELL"))
    { orders := o0 :: orest, provider := p,
      data_1 := { days := d0 :: drest, val := p.price, cash := fun _ => 1 },
      data_2 := { days := d0 :: drest, val := fun _ _ => 0, cash := fun _ => 0 },
      data_3 := { days := d0 :: drest, val := fun _ _ => 0,
                  cash := fun d => if d = d0 then start_val else 0 } }
  split at hrun
  · -- the sell pass cannot raise here: every order date is on the index
    rename_i st4 e heq
    rw [heq] at hokS
    exact absurd hokS.1 (by simp)
  rename_i st4 heq4
  rw [heq4] at hokS hfieldsS
  have hS_orders : st4.orders = o0 :: orest := hfieldsS.1
  have hS_d1 : st4.data_1
      = { days := d0 :: drest, val := p.price, cash := fun _ => 1 } := hfieldsS.2.2.1
  have hS_d3 : st4.data_3
      = { days := d0 :: drest, val := fun _ _ => 0,
          cash := fun d => if d = d0 then start_val else 0 } := hfieldsS.2.2.2.1
  have hS_days : st4.data_2.days = d0 :: drest := hfieldsS.2.2.2.2
  have hS_val : ∀ d s, st4.data_2.val d s
      = 0 + ((((o0 :: orest).filter (fun o => o.Order == "SELL")).filter
          (fun o => decide (o.Date = d) && decide (o.Symbol = s))).map
            (fun o => -(order_b o) * o.Shares)).sum := hokS.2.1
  have hS_cash : ∀ d, st4.data_2.cash d
      = 0 + ((((o0 :: orest).filter (fun o => o.Order == "SELL")).filter
          (fun o => decide (o.Date = d))).map
            (code_delta_cash p commission impact)).sum := hokS.2.2
  rw [hS_orders] at hrun
  rw [apply_orders_eq_list impact commission (-1)
    ((o0 :: orest).filter (fun o => !(o.Order == "SELL"))) _ hbB] at hrun
  have hokB := apply_order_list_ok impact commission
    ((o0 :: orest).filter (fun o => !(o.Order == "SELL"))) st4
    (fun o ho => by rw [hS_days]; exact hdate o (List.mem_of_mem_filter ho))
    (fun o ho => by rw [hS_d1]; exact hdate o (List.mem_of_mem_filter ho))
  have hfieldsB := apply_order_list_fields impact commission
    ((o0 :: orest).filter (fun o => !(o.Order == "SELL"))) st4
  split at hrun
  · -- nor can the buy pass
    rename_i st5 e heq
    rw [heq] at hokB
    exact absurd hokB.1 (by simp)
  rename_i st5 heq5
  rw [heq5] at hokB hfieldsB
  have hB_d1 : st5.data_1
      = { days := d0 :: drest, val := p.price, cash := fun _ => 1 } :=
    (hfieldsB.2.2.1 : st5.data_1 = st4.data_1).trans hS_d1
  have hB_d3 : st5.data_3
      = { days := d0 :: drest, val := fun _ _ => 0,
          cash := fun d => if d = d0 then start_val else 0 } :=
    (hfieldsB.2.2.2.1 : st5.data_3 = st4.data_3).trans hS_d3
  have hrow_val : ∀ d s, st5.data_2.val d s
      = (((o0 :: orest).filter
          (fun o => decide (o.Date = d) && decide (o.Symbol = s))).map
            (fun o => -(order_b o) * o.Shares)).sum := by
    intro d s
    have h5 : st5.data_2.val d s
        = st4.data_2.val d s
          + ((((o0 :: orest).filter (fun o => !(o.Order == "SELL"))).filter
              (fun o => decide (o.Date = d) && decide (o.Symbol = s))).map
                (fun o => -(order_b o) * o.Shares)).sum := hokB.2.1 d s
    rw [h5, hS_val d s, zero_add]
    exact sum_map_filter_partition (fun o => o.Order == "SELL")
      (fun o => decide (o.Date = d) && decide (o.Symbol = s))
      (fun o => -(order_b o) * o.Shares) (o0 :: orest)
  have hrow_cash : ∀ d, st5.data_2.cash d
      = (((o0 :: orest).filter (fun o => decide (o.Date = d))).map
          (code_delta_cash p commission impact)).sum := by
    intro d
    have h5 : st5.data_2.cash d
        = st4.data_2.cash d
          + ((((o0 :: orest).filter (fun o => !(o.Order == "SELL"))).filter
              (fun o => decide (o.Date = d))).map
                (fun o => st4.data_1.val o.Date o.Symbol * o.Shares
                  * (order_b o - impact) - commission)).sum := hokB.2.2 d
    rw [hS_d1] at h5
    rw [h5, hS_cash d, zero_add]
    exact sum_map_filter_partition (fun o => o.Order == "SELL")
      (fun o => decide (o.Date = d))
      (code_delta_cash p commission impact) (o0 :: orest)
  -- the accumulated ledger rows
  have hrow3 : ∀ d ∈ d0 :: drest,
      ((data_3_loop st5.data_2
          { st5.data_3 with
            val := fun d s =>
              if d = d0 then st5.data_2.val d0 s else st5.data_3.val d s,
            cash := fun d =>
              if d = d0 then st5.data_3.cash d0 + st5.data_2.cash d0
              else st5.data_3.cash d } d0 drest).cash d
        = start_val
          + (((d0 :: drest).filter (fun x => decide (x ≤ d))).map st5.data_2.cash).sum)
      ∧ (∀ s, (data_3_loop st5.data_2
          { st5.data_3 with
            val := fun d s =>
              if d = d0 then st5.data_2.val d0 s else st5.data_3.val d s,
            cash := fun d =>
              if d = d0 then st5.data_3.cash d0 + st5.data_2.cash d0
              else st5.data_3.cash d } d0 drest).val d s
        = (((d0 :: drest).filter (fun x => decide (x ≤ d))).map
            (fun x => st5.data_2.val x s)).sum) := by
    intro d hd
    rcases List.mem_cons.1 hd with rfl | hd
    · obtain ⟨huc, huv⟩ := data_3_loop_untouched st5.data_2 drest
        { st5.data_3 with
          val := fun d' s =>
            if d' = d then st5.data_2.val d s else st5.data_3.val d' s,
          cash := fun d' =>
            if d' = d then st5.data_3.cash d + st5.data_2.cash d
            else st5.data_3.cash d' } d d hd0drest
      have hfil : drest.filter (fun x => decide (x ≤ d)) = [] := by
        apply List.filter_eq_nil_iff.2
        intro x hx
        simp only [decide_eq_true_eq]
        exact not_le.2 (hgt0 x hx)
      refine ⟨?_, fun s => ?_⟩
      · rw [huc]
        simp [List.filter_cons, hfil, hB_d3]
      · rw [huv s]
        simp [List.filter_cons, hfil]
    · have hlt : d0 < d := hgt0 d hd
      obtain ⟨hrc, hrv⟩ := data_3_loop_rows st5.data_2 drest
        { st5.data_3 with
          val := fun d' s =>
            if d' = d0 then st5.data_2.val d0 s else st5.data_3.val d' s,
          cash := fun d' =>
            if d' = d0 then st5.data_3.cash d0 + st5.data_2.cash d0
            else st5.data_3.cash d' } d0 hchainD d hd
      have hfil : (d0 :: drest).filter (fun x => decide (x ≤ d))
          = d0 :: drest.filter (fun x => decide (x ≤ d)) := by
        rw [List.filter_cons]
        simp [le_of_lt hlt]
      refine ⟨?_, fun s => ?_⟩
      · rw [hrc, hfil]
        simp [hB_d3]
        ring
      · rw [hrv s, hfil]
        simp
  have hcashfinal : ∀ d ∈ d0 :: drest,
      (data_3_loop st5.data_2
        { st5.data_3 with
          val := fun d s =>
            if d = d0 then st5.data_2.val d0 s else st5.data_3.val d s,
          cash := fun d =>
            if d = d0 then st5.data_3.cash d0 + st5.data_2.cash d0
            else st5.data_3.cash d } d0 drest).cash d
      = cum_cash p (o0 :: orest) start_val commission impact d := by
    intro d hd
    rw [(hrow3 d hd).1]
    have hTnodup : ((d0 :: drest).filter (fun x => decide (x ≤ d))).Nodup :=
      hnodupD.filter _
    rw [List.map_congr_left (fun x _ => hrow_cash x)]
    rw [sum_over_days (code_delta_cash p commission impact) (o0 :: orest) _ hTnodup]
    rw [cum_cash]
    have hfc : (o0 :: orest).filter
        (fun o => decide (o.Date ∈ (d0 :: drest).filter (fun x => decide (x ≤ d))))
        = (o0 :: orest).filter (fun o => decide (o.Date ≤ d)) := by
      apply List.filter_congr
      intro o ho
      have hoD : o.Date ∈ d0 :: drest := hdate o ho
      simp [List.mem_filter, hoD]
    rw [hfc]
  have hvalfinal : ∀ d ∈ d0 :: drest, ∀ s,
      (data_3_loop st5.data_2
        { st5.data_3 with
          val := fun d s =>
            if d = d0 then st5.data_2.val d0 s else st5.data_3.val d s,
          cash := fun d =>
            if d = d0 then st5.data_3.cash d0 + st5.data_2.cash d0
            else st5.data_3.cash d } d0 drest).val d s
      = cum_pos (o0 :: orest) d s := by
    intro d hd s
    rw [(hrow3 d hd).2 s]
    have hTnodup : ((d0 :: drest).filter (fun x => decide (x ≤ d))).Nodup :=
      hnodupD.filter _
    have hswap : ∀ x : Nat,
        (o0 :: orest).filter (fun o => decide (o.Date = x) && decide (o.Symbol = s))
          = ((o0 :: orest).filter (fun o => decide (o.Symbol = s))).filter
              (fun o => decide (o.Date = x)) := by
      intro x
      rw [List.filter_filter]
    have hrv2 : ∀ x, st5.data_2.val x s
        = ((((o0 :: orest).filter (fun o => decide (o.Symbol = s))).filter
            (fun o => decide (o.Date = x))).map (fun o => -(order_b o) * o.Shares)).sum := by
      intro x
      rw [hrow_val x s, hswap x]
    rw [List.map_congr_left (fun x _ => hrv2 x)]
    rw [sum_over_days (fun o => -(order_b o) * o.Shares)
      ((o0 :: orest).filter (fun o => decide (o.Symbol = s))) _ hTnodup]
    have hcongr : ((o0 :: orest).filter (fun o => decide (o.Symbol = s))).filter
        (fun o => decide (o.Date ∈ (d0 :: drest).filter (fun x => decide (x ≤ d))))
        = ((o0 :: orest).filter (fun o => decide (o.Symbol = s))).filter
            (fun o => decide (o.Date ≤ d)) := by
      apply List.filter_congr
      intro o ho
      have hoD : o.Date ∈ d0 :: drest := hdate o (List.mem_of_mem_filter ho)
      simp [List.mem_filter, hoD]
    rw [hcongr, List.filter_filter, cum_pos]
  rw [hrun]
  constructor
  · show Except.ok _ = Except.ok _
    congr 1
    rw [port_vals_series, hB_d1]
    apply List.map_congr_left
    intro d hd
    simp only [Prod.mk.injEq, true_and]
    rw [one_mul, hcashfinal d hd]
    congr 1
    apply congrArg
    apply List.map_congr_left
    intro s _
    rw [hvalfinal d hd s]
  · intro d hd
    exact ⟨hcashfinal d hd, fun s => hvalfinal d hd s⟩

/-! ## Spec-side cost model (for refinement comparison) -/

/-- Transcribed from the spec's Cost Model contract (§4.2), to be compared
with the code's deltas: a BUY moves the position by `+shares`, a SELL by
`-shares`; any other side is outside the contract. -/
def spec_delta_pos (o : OrderRec) (s : String) : ℚ :=
  if o.Symbol = s then
    (if o.Order = "BUY" then o.Shares
     else if o.Order = "SELL" then -o.Shares else 0)
  else 0

/-- Transcribed from the spec's Cost Model contract (§4.2): a BUY moves cash
by `-shares * price * (1 + impact) - commission`, a SELL by
`+shares * price * (1 - impact) - commission`, at the order date's price. -/
def spec_delta_cash (p : PriceProvider) (commission impact : ℚ) (o : OrderRec) : ℚ :=
  if o.Order = "BUY" then
    -(o.Shares * p.price o.Date o.Symbol * (1 + impact)) - commission
  else if o.Order = "SELL" then
    o.Shares * p.price o.Date o.Symbol * (1 - impact) - commission
  else 0

/-- The spec's ledger cash on day `d`: starting cash updated by the
cumulative cash delta of every order dated on or before `d`. -/
def spec_cash (p : PriceProvider) (orders : List OrderRec)
    (start_val commission impact : ℚ) (d : Nat) : ℚ :=
  start_val + ((orders.filter (fun o => decide (o.Date ≤ d))).map
    (spec_delta_cash p commission impact)).sum

/-- The spec's ledger position in `s` on day `d`: zero updated by the
cumulative position delta of every order dated on or before `d`. -/
def spec_positions (orders : List OrderRec) (d : Nat) (s : String) : ℚ :=
  ((orders.filter (fun o => decide (o.Date ≤ d))).map
    (fun o => spec_delta_pos o s)).sum

lemma sum_filter_and_symbol (s : String) (f : OrderRec → ℚ) (P : OrderRec → Bool) :
    ∀ L : List OrderRec,
      ((L.filter (fun o => P o && decide (o.Symbol = s))).map f).sum
        = ((L.filter P).map (fun o => if o.Symbol = s then f o else 0)).sum := by
  intro L
  induction L with
  | nil => simp
  | cons o rest ih =>
      cases hP : P o <;> by_cases hs : o.Symbol = s <;>
        simp [List.filter_cons, hP, hs, ih]

lemma cum_cash_eq_spec (p : PriceProvider) (orders : List OrderRec)
    (start_val commission impact : ℚ) (d : Nat)
    (hside : ∀ o ∈ orders, o.Order = "BUY" ∨ o.Order = "SELL") :
    cum_cash p orders start_val commission impact d
      = spec_cash p orders start_val commission impact d := by
  rw [cum_cash, spec_cash]
  congr 1
  apply congrArg
  apply List.map_congr_left
  intro o ho
  rcases hside o (List.mem_of_mem_filter ho) with hb | hs
  · rw [code_delta_cash, spec_delta_cash, order_b, hb]
    norm_num
    rw [if_neg (by decide : ¬ ("BUY" : String) = "SELL")]
    ring
  · rw [code_delta_cash, spec_delta_cash, order_b, hs]
    norm_num
    rw [if_neg (by decide : ¬ ("SELL" : String) = "BUY")]
    ring

lemma cum_pos_eq_spec (orders : List OrderRec) (d : Nat) (s : String)
    (hside : ∀ o ∈ orders, o.Order = "BUY" ∨ o.Order = "SELL") :
    cum_pos orders d s = spec_positions orders d s := by
  rw [cum_pos, spec_positions]
  rw [sum_filter_and_symbol s (fun o => -(order_b o) * o.Shares)
    (fun o => decide (o.Date ≤ d)) orders]
  apply congrArg
  apply List.map_congr_left
  intro o ho
  rcases hside o (List.mem_of_mem_filter ho) with hb | hs <;>
    by_cases hsym : o.Symbol = s
  · rw [spec_delta_pos]
    simp [hsym, hb, order_b]
  · rw [spec_delta_pos]
    simp [hsym]
  · rw [spec_delta_pos]
    simp [hsym, hs, order_b]
  · rw [spec_delta_pos]
    simp [hsym]

/-! ## Claim theorems -/

/-- C1: for every day `d` in the valuation window (indeed for every day of
the emitted index), the snapshot value `compute_portvals` emits for `d`
equals `cash(d) + Σ over symbols s of positions(d)[s] * price(d)[s]`, where
`cash(d)` and `positions(d)` are the starting cash and zero positions
updated by the cumulative spec cost-model `(Δposition, Δcash)` of every
order dated on or before `d`. -/
theorem C1_snapshot_value (p : PriceProvider) (o0 : OrderRec) (orest : List OrderRec)
    (start_val commission impact : ℚ)
    (htd : sortedLt p.tradingDays = true)
    (hsym : ∀ o ∈ o0 :: orest, o.Symbol ∈ p.symUniverse)
    (hdate : ∀ o ∈ o0 :: orest,
      o.Date ∈ trading_days_in p (o0.Date - 1) (orest.getLastD o0).Date)
    (hside : ∀ o ∈ o0 :: orest, o.Order = "BUY" ∨ o.Order = "SELL") :
    compute_portvals p (o0 :: orest) start_val commission impact
      = .ok ((trading_days_in p (o0.Date - 1) (orest.getLastD o0).Date).map (fun d =>
          (d, spec_cash p (o0 :: orest) start_val commission impact d
              + ((unique_symbols (o0 :: orest)).map (fun s =>
                  spec_positions (o0 :: orest) d s * p.price d s)).sum))) := by
  have hm := (run_portvals_char p o0 orest start_val commission impact htd hsym hdate).1
  rw [compute_portvals, hm]
  apply congrArg
  apply List.map_congr_left
  intro d _
  simp only [Prod.mk.injEq, true_and]
  rw [cum_cash_eq_spec p (o0 :: orest) start_val commission impact d hside]
  rw [add_comm]
  congr 1
  apply congrArg
  apply List.map_congr_left
  intro s _
  rw [cum_pos_eq_spec (o0 :: orest) d s hside, mul_comm]

theorem C1_snapshot_value_witness :
    (sortedLt (PriceProvider.mk [1, 2] (fun _ _ => 10) ["X"]).tradingDays = true)
    ∧ (∀ o ∈ [OrderRec.mk 1 "X" "BUY" 2, OrderRec.mk 2 "X" "SELL" 1],
        o.Symbol ∈ (PriceProvider.mk [1, 2] (fun _ _ => 10) ["X"]).symUniverse)
    ∧ (∀ o ∈ [OrderRec.mk 1 "X" "BUY" 2, OrderRec.mk 2 "X" "SELL" 1],
        o.Date ∈ trading_days_in (PriceProvider.mk [1, 2] (fun _ _ => 10) ["X"]) 0 2)
    ∧ (∀ o ∈ [OrderRec.mk 1 "X" "BUY" 2, OrderRec.mk 2 "X" "SELL" 1],
        o.Order = "BUY" ∨ o.Order = "SELL")
    ∧ (compute_portvals (PriceProvider.mk [1, 2] (fun _ _ => 10) ["X"])
          [OrderRec.mk 1 "X" "BUY" 2, OrderRec.mk 2 "X" "SELL" 1] 100 0 0
        = .ok ((trading_days_in (PriceProvider.mk [1, 2] (fun _ _ => 10) ["X"]) 0 2).map
            (fun d =>
              (d, spec_cash (PriceProvider.mk [1, 2] (fun _ _ => 10) ["X"])
                    [OrderRec.mk 1 "X" "BUY" 2, OrderRec.mk 2 "X" "SELL" 1] 100 0 0 d
                  + ((unique_symbols
                        [OrderRec.mk 1 "X" "BUY" 2, OrderRec.mk 2 "X" "SELL" 1]).map
                      (fun s =>
                        spec_positions
                            [OrderRec.mk 1 "X" "BUY" 2, OrderRec.mk 2 "X" "SELL" 1] d s
                          * (PriceProvider.mk [1, 2] (fun _ _ => 10) ["X"]).price d s)).sum)))) :=
  ⟨by decide, by decide, by decide, by decide,
    C1_snapshot_value (PriceProvider.mk [1, 2] (fun _ _ => 10) ["X"])
      (OrderRec.mk 1 "X" "BUY" 2) [OrderRec.mk 2 "X" "SELL" 1] 100 0 0
      (by decide) (by decide) (by decide) (by decide)⟩

/-- C2: the cost model of a single order with positive shares, positive
price, commission ≥ 0 and impact in `[0, 1)`: the BUY flag (`-1`, as passed
for every non-`SELL` row) moves the position cell by `+shares` and the cash
cell by `-shares*price*(1+impact) - commission`; the SELL flag (`1`) moves
them by `-shares` and `+shares*price*(1-impact) - commission`. -/
theorem C2_cost_model (st : PVState) (date : Nat) (symbol : String)
    (shares price commission impact : ℚ)
    (h2 : date ∈ st.data_2.days) (h1 : date ∈ st.data_1.days)
    (hpr : st.data_1.val date symbol = price)
    (hsh : 0 < shares) (hp : 0 < price) (hc : 0 ≤ commission)
    (hi0 : 0 ≤ impact) (hi1 : impact < 1) :
    ((calculate_data_2 st date symbol shares impact commission
        (order_b (OrderRec.mk date symbol "BUY" shares))).2 = none
      ∧ (calculate_data_2 st date symbol shares impact commission
          (order_b (OrderRec.mk date symbol "BUY" shares))).1.data_2.val date symbol
          - st.data_2.val date symbol = shares
      ∧ (calculate_data_2 st date symbol shares impact commission
          (order_b (OrderRec.mk date symbol "BUY" shares))).1.data_2.cash date
          - st.data_2.cash date
          = -(shares * price * (1 + impact)) - commission)
    ∧ ((calculate_data_2 st date symbol shares impact commission
        (order_b (OrderRec.mk date symbol "SELL" shares))).2 = none
      ∧ (calculate_data_2 st date symbol shares impact commission
          (order_b (OrderRec.mk date symbol "SELL" shares))).1.data_2.val date symbol
          - st.data_2.val date symbol = -shares
      ∧ (calculate_data_2 st date symbol shares impact commission
          (order_b (OrderRec.mk date symbol "SELL" shares))).1.data_2.cash date
          - st.data_2.cash date
          = shares * price * (1 - impact) - commission) := by
  have hb : order_b (OrderRec.mk date symbol "BUY" shares) = -1 := rfl
  have hs : order_b (OrderRec.mk date symbol "SELL" shares) = 1 := rfl
  rw [hb, hs, calculate_ok st date symbol shares impact commission (-1) h2 h1,
    calculate_ok st date symbol shares impact commission 1 h2 h1]
  refine ⟨⟨rfl, ?_, ?_⟩, rfl, ?_, ?_⟩ <;> simp [hpr] <;> ring

theorem C2_cost_model_witness :
    (1 ∈ (Frame.mk [1] (fun _ _ => 0) (fun _ => 0)).days)
    ∧ (1 ∈ (Frame.mk [1] (fun _ _ => 10) (fun _ => 1)).days)
    ∧ ((Frame.mk [1] (fun _ _ => 10) (fun _ => 1)).val 1 "X" = 10)
    ∧ (0 < (5 : ℚ)) ∧ (0 < (10 : ℚ)) ∧ ((0 : ℚ) ≤ 2) ∧ ((0 : ℚ) ≤ 0) ∧ ((0 : ℚ) < 1)
    ∧ (((calculate_data_2
          (PVState.mk [] (PriceProvider.mk [1] (fun _ _ => 10) ["X"])
            (Frame.mk [1] (fun _ _ => 10) (fun _ => 1))
            (Frame.mk [1] (fun _ _ => 0) (fun _ => 0))
            (Frame.mk [1] (fun _ _ => 0) (fun _ => 0)))
          1 "X" 5 0 2 (order_b (OrderRec.mk 1 "X" "BUY" 5))).2 = none
      ∧ (calculate_data_2
          (PVState.mk [] (PriceProvider.mk [1] (fun _ _ => 10) ["X"])
            (Frame.mk [1] (fun _ _ => 10) (fun _ => 1))
            (Frame.mk [1] (fun _ _ => 0) (fun _ => 0))
            (Frame.mk [1] (fun _ _ => 0) (fun _ => 0)))
          1 "X" 5 0 2 (order_b (OrderRec.mk 1 "X" "BUY" 5))).1.data_2.val 1 "X"
          - (PVState.mk [] (PriceProvider.mk [1] (fun _ _ => 10) ["X"])
            (Frame.mk [1] (fun _ _ => 10) (fun _ => 1))
            (Frame.mk [1] (fun _ _ => 0) (fun _ => 0))
            (Frame.mk [1] (fun _ _ => 0) (fun _ => 0))).data_2.val 1 "X" = 5
      ∧ (calculate_data_2
          (PVState.mk [] (PriceProvider.mk [1] (fun _ _ => 10) ["X"])
            (Frame.mk [1] (fun _ _ => 10) (fun _ => 1))
            (Frame.mk [1] (fun _ _ => 0) (fun _ => 0))
            (Frame.mk [1] (fun _ _ => 0) (fun _ => 0)))
          1 "X" 5 0 2 (order_b (OrderRec.mk 1 "X" "BUY" 5))).1.data_2.cash 1
          - (PVState.mk [] (PriceProvider.mk [1] (fun _ _ => 10) ["X"])
            (Frame.mk [1] (fun _ _ => 10) (fun _ => 1))
            (Frame.mk [1] (fun _ _ => 0) (fun _ => 0))
            (Frame.mk [1] (fun _ _ => 0) (fun _ => 0))).data_2.cash 1
          = -(5 * 10 * (1 + 0)) - 2)
    ∧ ((calculate_data_2
          (PVState.mk [] (PriceProvider.mk [1] (fun _ _ => 10) ["X"])
            (Frame.mk [1] (fun _ _ => 10) (fun _ => 1))
            (Frame.mk [1] (fun _ _ => 0) (fun _ => 0))
            (Frame.mk [1] (fun _ _ => 0) (fun _ => 0)))
          1 "X" 5 0 2 (order_b (OrderRec.mk 1 "X" "SELL" 5))).2 = none
      ∧ (calculate_data_2
          (PVState.mk [] (PriceProvider.mk [1] (fun _ _ => 10) ["X"])
            (Frame.mk [1] (fun _ _ => 10) (fun _ => 1))
            (Frame.mk [1] (fun _ _ => 0) (fun _ => 0))
            (Frame.mk [1] (fun _ _ => 0) (fun _ => 0)))
          1 "X" 5 0 2 (order_b (OrderRec.mk 1 "X" "SELL" 5))).1.data_2.val 1 "X"
          - (PVState.mk [] (PriceProvider.mk [1] (fun _ _ => 10) ["X"])
            (Frame.mk [1] (fun _ _ => 10) (fun _ => 1))
            (Frame.mk [1] (fun _ _ => 0) (fun _ => 0))
            (Frame.mk [1] (fun _ _ => 0) (fun _ => 0))).data_2.val 1 "X" = -5
      ∧ (calculate_data_2
          (PVState.mk [] (PriceProvider.mk [1] (fun _ _ => 10) ["X"])
            (Frame.mk [1] (fun _ _ => 10) (fun _ => 1))
            (Frame.mk [1] (fun _ _ => 0) (fun _ => 0))
            (Frame.mk [1] (fun _ _ => 0) (fun _ => 0)))
          1 "X" 5 0 2 (order_b (OrderRec.mk 1 "X" "SELL" 5))).1.data_2.cash 1
          - (PVState.mk [] (PriceProvider.mk [1] (fun _ _ => 10) ["X"])
            (Frame.mk [1] (fun _ _ => 10) (fun _ => 1))
            (Frame.mk [1] (fun _ _ => 0) (fun _ => 0))
            (Frame.mk [1] (fun _ _ => 0) (fun _ => 0))).data_2.cash 1
          = 5 * 10 * (1 - 0) - 2)) :=
  ⟨by decide, by decide, rfl, by decide, by decide, by decide, by decide, by decide,
    C2_cost_model
      (PVState.mk [] (PriceProvider.mk [1] (fun _ _ => 10) ["X"])
        (Frame.mk [1] (fun _ _ => 10) (fun _ => 1))
        (Frame.mk [1] (fun _ _ => 0) (fun _ => 0))
        (Frame.mk [1] (fun _ _ => 0) (fun _ => 0)))
      1 "X" 5 10 2 0 (by decide) (by decide) rfl (by decide) (by decide) (by decide)
      (by decide) (by decide)⟩

/-- C5: with commission = 0 and impact = 0, a BUY of `n` shares at the
day's price followed by a SELL of `n` shares at that same price leaves the
booked cash delta and the booked position of the symbol exactly as they
were before the two orders (round-trip neutrality, exact arithmetic). -/
theorem C5_round_trip (st : PVState) (date : Nat) (symbol : String) (n pr : ℚ)
    (h2 : date ∈ st.data_2.days) (h1 : date ∈ st.data_1.days)
    (hpr : st.data_1.val date symbol = pr) (hn : 0 < n) :
    ((calculate_data_2 st date symbol n 0 0
        (order_b (OrderRec.mk date symbol "BUY" n))).2 = none)
    ∧ ((calculate_data_2 (calculate_data_2 st date symbol n 0 0
          (order_b (OrderRec.mk date symbol "BUY" n))).1 date symbol n 0 0
          (order_b (OrderRec.mk date symbol "SELL" n))).2 = none)
    ∧ ((calculate_data_2 (calculate_data_2 st date symbol n 0 0
          (order_b (OrderRec.mk date symbol "BUY" n))).1 date symbol n 0 0
          (order_b (OrderRec.mk date symbol "SELL" n))).1.data_2.cash date
        = st.data_2.cash date)
    ∧ ((calculate_data_2 (calculate_data_2 st date symbol n 0 0
          (order_b (OrderRec.mk date symbol "BUY" n))).1 date symbol n 0 0
          (order_b (OrderRec.mk date symbol "SELL" n))).1.data_2.val date symbol
        = st.data_2.val date symbol) := by
  have hb : order_b (OrderRec.mk date symbol "BUY" n) = -1 := rfl
  have hs : order_b (OrderRec.mk date symbol "SELL" n) = 1 := rfl
  rw [hb, hs]
  refine ⟨?_, ?_, ?_, ?_⟩ <;> simp [calculate_data_2, h2, h1] <;> ring

theorem C5_round_trip_witness :
    (1 ∈ (Frame.mk [1] (fun _ _ => 0) (fun _ => 0)).days)
    ∧ (1 ∈ (Frame.mk [1] (fun _ _ => 50) (fun _ => 1)).days)
    ∧ ((Frame.mk [1] (fun _ _ => 50) (fun _ => 1)).val 1 "X" = 50)
    ∧ (0 < (1000 : ℚ))
    ∧ (((calculate_data_2
          (PVState.mk [] (PriceProvider.mk [1] (fun _ _ => 50) ["X"])
            (Frame.mk [1] (fun _ _ => 50) (fun _ => 1))
            (Frame.mk [1] (fun _ _ => 0) (fun _ => 0))
            (Frame.mk [1] (fun _ _ => 0) (fun _ => 0)))
          1 "X" 1000 0 0 (order_b (OrderRec.mk 1 "X" "BUY" 1000))).2 = none)
      ∧ ((calculate_data_2 (calculate_data_2
            (PVState.mk [] (PriceProvider.mk [1] (fun _ _ => 50) ["X"])
              (Frame.mk [1] (fun _ _ => 50) (fun _ => 1))
              (Frame.mk [1] (fun _ _ => 0) (fun _ => 0))
              (Frame.mk [1] (fun _ _ => 0) (fun _ => 0)))
            1 "X" 1000 0 0 (order_b (OrderRec.mk 1 "X" "BUY" 1000))).1 1 "X" 1000 0 0
            (order_b (OrderRec.mk 1 "X" "SELL" 1000))).2 = none)
      ∧ ((calculate_data_2 (calculate_data_2
            (PVState.mk [] (PriceProvider.mk [1] (fun _ _ => 50) ["X"])
              (Frame.mk [1] (fun _ _ => 50) (fun _ => 1))
              (Frame.mk [1] (fun _ _ => 0) (fun _ => 0))
              (Frame.mk [1] (fun _ _ => 0) (fun _ => 0)))
            1 "X" 1000 0 0 (order_b (OrderRec.mk 1 "X" "BUY" 1000))).1 1 "X" 1000 0 0
            (order_b (OrderRec.mk 1 "X" "SELL" 1000))).1.data_2.cash 1
          = (PVState.mk [] (PriceProvider.mk [1] (fun _ _ => 50) ["X"])
              (Frame.mk [1] (fun _ _ => 50) (fun _ => 1))
              (Frame.mk [1] (fun _ _ => 0) (fun _ => 0))
              (Frame.mk [1] (fun _ _ => 0) (fun _ => 0))).data_2.cash 1)
      ∧ ((calculate_data_2 (calculate_data_2
            (PVState.mk [] (PriceProvider.mk [1] (fun _ _ => 50) ["X"])
              (Frame.mk [1] (fun _ _ => 50) (fun _ => 1))
              (Frame.mk [1] (fun _ _ => 0) (fun _ => 0))
              (Frame.mk [1] (fun _ _ => 0) (fun _ => 0)))
            1 "X" 1000 0 0 (order_b (OrderRec.mk 1 "X" "BUY" 1000))).1 1 "X" 1000 0 0
            (order_b (OrderRec.mk 1 "X" "SELL" 1000))).1.data_2.val 1 "X"
          = (PVState.mk [] (PriceProvider.mk [1] (fun _ _ => 50) ["X"])
              (Frame.mk [1] (fun _ _ => 50) (fun _ => 1))
              (Frame.mk [1] (fun _ _ => 0) (fun _ => 0))
              (Frame.mk [1] (fun _ _ => 0) (fun _ => 0))).data_2.val 1 "X")) :=
  ⟨by decide, by decide, rfl, by decide,
    C5_round_trip
      (PVState.mk [] (PriceProvider.mk [1] (fun _ _ => 50) ["X"])
        (Frame.mk [1] (fun _ _ => 50) (fun _ => 1))
        (Frame.mk [1] (fun _ _ => 0) (fun _ => 0))
        (Frame.mk [1] (fun _ _ => 0) (fun _ => 0)))
      1 "X" 1000 50 (by decide) (by decide) rfl (by decide)⟩

/-- C6: under exact arithmetic, applying the orders of a day in any
permutation of their input order yields the same end-of-day cash delta and
the same end-of-day position for every symbol (and both passes succeed); in
particular processing all SELL rows before all other rows — what
`compute_portvals` does — gives the same result as input order. -/
theorem C6_same_day_permutation (impact commission : ℚ) (st : PVState) (d : Nat)
    (L1 L2 : List OrderRec)
    (hperm : List.Perm L1 L2)
    (hday : ∀ o ∈ L1, o.Date = d)
    (hd2 : ∀ o ∈ L1, o.Date ∈ st.data_2.days)
    (hd1 : ∀ o ∈ L1, o.Date ∈ st.data_1.days) :
    ((apply_order_list impact commission st L1).2 = none)
    ∧ ((apply_order_list impact commission st L2).2 = none)
    ∧ ((apply_order_list impact commission st L1).1.data_2.cash d
        = (apply_order_list impact commission st L2).1.data_2.cash d)
    ∧ (∀ s, (apply_order_list impact commission st L1).1.data_2.val d s
        = (apply_order_list impact commission st L2).1.data_2.val d s)
    ∧ ((apply_order_list impact commission st
          (L1.filter (fun o => o.Order == "SELL")
            ++ L1.filter (fun o => !(o.Order == "SELL")))).1.data_2.cash d
        = (apply_order_list impact commission st L1).1.data_2.cash d)
    ∧ (∀ s, (apply_order_list impact commission st
          (L1.filter (fun o => o.Order == "SELL")
            ++ L1.filter (fun o => !(o.Order == "SELL")))).1.data_2.val d s
        = (apply_order_list impact commission st L1).1.data_2.val d s) := by
  have hd2' : ∀ o ∈ L2, o.Date ∈ st.data_2.days :=
    fun o ho => hd2 o (hperm.mem_iff.2 ho)
  have hd1' : ∀ o ∈ L2, o.Date ∈ st.data_1.days :=
    fun o ho => hd1 o (hperm.mem_iff.2 ho)
  have hpermF : List.Perm
      (L1.filter (fun o => o.Order == "SELL")
        ++ L1.filter (fun o => !(o.Order == "SELL"))) L1 :=
    List.filter_append_perm _ L1
  have hd2'' : ∀ o ∈ L1.filter (fun o => o.Order == "SELL")
      ++ L1.filter (fun o => !(o.Order == "SELL")), o.Date ∈ st.data_2.days :=
    fun o ho => hd2 o (hpermF.mem_iff.1 ho)
  have hd1'' : ∀ o ∈ L1.filter (fun o => o.Order == "SELL")
      ++ L1.filter (fun o => !(o.Order == "SELL")), o.Date ∈ st.data_1.days :=
    fun o ho => hd1 o (hpermF.mem_iff.1 ho)
  obtain ⟨h1n, h1v, h1c⟩ := apply_order_list_ok impact commission L1 st hd2 hd1
  obtain ⟨h2n, h2v, h2c⟩ := apply_order_list_ok impact commission L2 st hd2' hd1'
  obtain ⟨h3n, h3v, h3c⟩ := apply_order_list_ok impact commission
    (L1.filter (fun o => o.Order == "SELL")
      ++ L1.filter (fun o => !(o.Order == "SELL"))) st hd2'' hd1''
  refine ⟨h1n, h2n, ?_, ?_, ?_, ?_⟩
  · rw [h1c d, h2c d]
    congr 1
    exact ((hperm.filter _).map _).sum_eq
  · intro s
    rw [h1v d s, h2v d s]
    congr 1
    exact ((hperm.filter _).map _).sum_eq
  · rw [h3c d, h1c d]
    congr 1
    exact ((hpermF.filter _).map _).sum_eq
  · intro s
    rw [h3v d s, h1v d s]
    congr 1
    exact ((hpermF.filter _).map _).sum_eq

theorem C6_same_day_permutation_witness :
    (List.Perm [OrderRec.mk 1 "X" "SELL" 1, OrderRec.mk 1 "X" "BUY" 2]
        [OrderRec.mk 1 "X" "BUY" 2, OrderRec.mk 1 "X" "SELL" 1])
    ∧ (∀ o ∈ [OrderRec.mk 1 "X" "SELL" 1, OrderRec.mk 1 "X" "BUY" 2], o.Date = 1)
    ∧ (∀ o ∈ [OrderRec.mk 1 "X" "SELL" 1, OrderRec.mk 1 "X" "BUY" 2],
        o.Date ∈ (Frame.mk [1] (fun _ _ => 0) (fun _ => 0)).days)
    ∧ (∀ o ∈ [OrderRec.mk 1 "X" "SELL" 1, OrderRec.mk 1 "X" "BUY" 2],
        o.Date ∈ (Frame.mk [1] (fun _ _ => 10) (fun _ => 1)).days)
    ∧ (((apply_order_list 0 0
          (PVState.mk [] (PriceProvider.mk [1] (fun _ _ => 10) ["X"])
            (Frame.mk [1] (fun _ _ => 10) (fun _ => 1))
            (Frame.mk [1] (fun _ _ => 0) (fun _ => 0))
            (Frame.mk [1] (fun _ _ => 0) (fun _ => 0)))
          [OrderRec.mk 1 "X" "SELL" 1, OrderRec.mk 1 "X" "BUY" 2]).2 = none)
      ∧ ((apply_order_list 0 0
          (PVState.mk [] (PriceProvider.mk [1] (fun _ _ => 10) ["X"])
            (Frame.mk [1] (fun _ _ => 10) (fun _ => 1))
            (Frame.mk [1] (fun _ _ => 0) (fun _ => 0))
            (Frame.mk [1] (fun _ _ => 0) (fun _ => 0)))
          [OrderRec.mk 1 "X" "BUY" 2, OrderRec.mk 1 "X" "SELL" 1]).2 = none)
      ∧ ((apply_order_list 0 0
          (PVState.mk [] (PriceProvider.mk [1] (fun _ _ => 10) ["X"])
            (Frame.mk [1] (fun _ _ => 10) (fun _ => 1))
            (Frame.mk [1] (fun _ _ => 0) (fun _ => 0))
            (Frame.mk [1] (fun _ _ => 0) (fun _ => 0)))
          [OrderRec.mk 1 "X" "SELL" 1, OrderRec.mk 1 "X" "BUY" 2]).1.data_2.cash 1
        = (apply_order_list 0 0
          (PVState.mk [] (PriceProvider.mk [1] (fun _ _ => 10) ["X"])
            (Frame.mk [1] (fun _ _ => 10) (fun _ => 1))
            (Frame.mk [1] (fun _ _ => 0) (fun _ => 0))
            (Frame.mk [1] (fun _ _ => 0) (fun _ => 0)))
          [OrderRec.mk 1 "X" "BUY" 2, OrderRec.mk 1 "X" "SELL" 1]).1.data_2.cash 1)
      ∧ (∀ s, (apply_order_list 0 0
          (PVState.mk [] (PriceProvider.mk [1] (fun _ _ => 10) ["X"])
            (Frame.mk [1] (fun _ _ => 10) (fun _ => 1))
            (Frame.mk [1] (fun _ _ => 0) (fun _ => 0))
            (Frame.mk [1] (fun _ _ => 0) (fun _ => 0)))
          [OrderRec.mk 1 "X" "SELL" 1, OrderRec.mk 1 "X" "BUY" 2]).1.data_2.val 1 s
        = (apply_order_list 0 0
          (PVState.mk [] (PriceProvider.mk [1] (fun _ _ => 10) ["X"])
            (Frame.mk [1] (fun _ _ => 10) (fun _ => 1))
            (Frame.mk [1] (fun _ _ => 0) (fun _ => 0))
            (Frame.mk [1] (fun _ _ => 0) (fun _ => 0)))
          [OrderRec.mk 1 "X" "BUY" 2, OrderRec.mk 1 "X" "SELL" 1]).1.data_2.val 1 s)
      ∧ ((apply_order_list 0 0
          (PVState.mk [] (PriceProvider.mk [1] (fun _ _ => 10) ["X"])
            (Frame.mk [1] (fun _ _ => 10) (fun _ => 1))
            (Frame.mk [1] (fun _ _ => 0) (fun _ => 0))
            (Frame.mk [1] (fun _ _ => 0) (fun _ => 0)))
          ([OrderRec.mk 1 "X" "SELL" 1, OrderRec.mk 1 "X" "BUY" 2].filter
              (fun o => o.Order == "SELL")
            ++ [OrderRec.mk 1 "X" "SELL" 1, OrderRec.mk 1 "X" "BUY" 2].filter
              (fun o => !(o.Order == "SELL")))).1.data_2.cash 1
        = (apply_order_list 0 0
          (PVState.mk [] (PriceProvider.mk [1] (fun _ _ => 10) ["X"])
            (Frame.mk [1] (fun _ _ => 10) (fun _ => 1))
            (Frame.mk [1] (fun _ _ => 0) (fun _ => 0))
            (Frame.mk [1] (fun _ _ => 0) (fun _ => 0)))
          [OrderRec.mk 1 "X" "SELL" 1, OrderRec.mk 1 "X" "BUY" 2]).1.data_2.cash 1)
      ∧ (∀ s, (apply_order_list 0 0
          (PVState.mk [] (PriceProvider.mk [1] (fun _ _ => 10) ["X"])
            (Frame.mk [1] (fun _ _ => 10) (fun _ => 1))
            (Frame.mk [1] (fun _ _ => 0) (fun _ => 0))
            (Frame.mk [1] (fun _ _ => 0) (fun _ => 0)))
          ([OrderRec.mk 1 "X" "SELL" 1, OrderRec.mk 1 "X" "BUY" 2].filter
              (fun o => o.Order == "SELL")
            ++ [OrderRec.mk 1 "X" "SELL" 1, OrderRec.mk 1 "X" "BUY" 2].filter
              (fun o => !(o.Order == "SELL")))).1.data_2.val 1 s
        = (apply_order_list 0 0
          (PVState.mk [] (PriceProvider.mk [1] (fun _ _ => 10) ["X"])
            (Frame.mk [1] (fun _ _ => 10) (fun _ => 1))
            (Frame.mk [1] (fun _ _ => 0) (fun _ => 0))
            (Frame.mk [1] (fun _ _ => 0) (fun _ => 0)))
          [OrderRec.mk 1 "X" "SELL" 1, OrderRec.mk 1 "X" "BUY" 2]).1.data_2.val 1 s)) :=
  ⟨List.Perm.swap (OrderRec.mk 1 "X" "BUY" 2) (OrderRec.mk 1 "X" "SELL" 1) [],
    by decide, by decide, by decide,
    C6_same_day_permutation 0 0
      (PVState.mk [] (PriceProvider.mk [1] (fun _ _ => 10) ["X"])
        (Frame.mk [1] (fun _ _ => 10) (fun _ => 1))
        (Frame.mk [1] (fun _ _ => 0) (fun _ => 0))
        (Frame.mk [1] (fun _ _ => 0) (fun _ => 0)))
      1 [OrderRec.mk 1 "X" "SELL" 1, OrderRec.mk 1 "X" "BUY" 2]
      [OrderRec.mk 1 "X" "BUY" 2, OrderRec.mk 1 "X" "SELL" 1]
      (List.Perm.swap (OrderRec.mk 1 "X" "BUY" 2) (OrderRec.mk 1 "X" "SELL" 1) [])
      (by decide) (by decide) (by decide)⟩

/-- C3 counterexample: with trading calendar {1, 2, 3} and orders dated 2
and 3, the returned series also contains a snapshot for day 1 — a trading
day strictly before min(order dates) = 2 — so the claim's window
`[min(order dates), max(order dates)]` with "no snapshot outside that
window" is violated. -/
theorem C3_counterexample :
    (compute_portvals (PriceProvider.mk [1, 2, 3] (fun _ _ => 10) ["X"])
        [OrderRec.mk 2 "X" "BUY" 1, OrderRec.mk 3 "X" "SELL" 1] 100 0 0
      = .ok [(1, 100), (2, 100), (3, 100)])
    ∧ (∀ o ∈ [OrderRec.mk 2 "X" "BUY" 1, OrderRec.mk 3 "X" "SELL" 1], 2 ≤ o.Date) := by
  constructor
  · norm_num [compute_portvals, run_portvals, mkInitState, get_data, trading_days_in,
      unique_symbols, pdUnique, apply_orders, calculate_data_2, data_3_loop,
      edit_data_3_rows, port_vals_series]
  · decide

/-- C3 (amended): for every non-empty, validly priced and dated order
sequence the returned series is date-ascending with no duplicate dates and
contains exactly one snapshot per trading day of the window
`[min(order dates) − 1 calendar day, max(order dates)]` — that is, the
claim's window widened by the one leading day the code prepends for its
starting-cash seed row. -/
theorem C3_series_shape (p : PriceProvider) (o0 : OrderRec) (orest : List OrderRec)
    (start_val commission impact : ℚ)
    (htd : sortedLt p.tradingDays = true)
    (hsym : ∀ o ∈ o0 :: orest, o.Symbol ∈ p.symUniverse)
    (hdate : ∀ o ∈ o0 :: orest,
      o.Date ∈ trading_days_in p (o0.Date - 1) (orest.getLastD o0).Date) :
    ∃ pv, compute_portvals p (o0 :: orest) start_val commission impact = .ok pv
      ∧ pv.map Prod.fst = trading_days_in p (o0.Date - 1) (orest.getLastD o0).Date
      ∧ List.Chain' (· < ·) (pv.map Prod.fst) := by
  have hm := (run_portvals_char p o0 orest start_val commission impact htd hsym hdate).1
  have hfst : ((trading_days_in p (o0.Date - 1) (orest.getLastD o0).Date).map (fun d =>
      (d, ((unique_symbols (o0 :: orest)).map (fun s =>
            p.price d s * cum_pos (o0 :: orest) d s)).sum
          + cum_cash p (o0 :: orest) start_val commission impact d))).map Prod.fst
      = trading_days_in p (o0.Date - 1) (orest.getLastD o0).Date := by
    rw [List.map_map]
    exact List.map_id _
  refine ⟨_, hm, hfst, ?_⟩
  rw [hfst]
  have h1 : List.Pairwise (· < ·) p.tradingDays :=
    List.chain'_iff_pairwise.1 (sortedLt_chain' _ htd)
  rw [trading_days_in]
  exact List.chain'_iff_pairwise.2 (h1.sublist (List.filter_sublist _))

theorem C3_series_shape_witness :
    (sortedLt (PriceProvider.mk [1, 2, 3] (fun _ _ => 10) ["X"]).tradingDays = true)
    ∧ (∀ o ∈ [OrderRec.mk 2 "X" "BUY" 1, OrderRec.mk 3 "X" "SELL" 1],
        o.Symbol ∈ (PriceProvider.mk [1, 2, 3] (fun _ _ => 10) ["X"]).symUniverse)
    ∧ (∀ o ∈ [OrderRec.mk 2 "X" "BUY" 1, OrderRec.mk 3 "X" "SELL" 1],
        o.Date ∈ trading_days_in (PriceProvider.mk [1, 2, 3] (fun _ _ => 10) ["X"]) 1 3)
    ∧ (∃ pv, compute_portvals (PriceProvider.mk [1, 2, 3] (fun _ _ => 10) ["X"])
          [OrderRec.mk 2 "X" "BUY" 1, OrderRec.mk 3 "X" "SELL" 1] 100 0 0 = .ok pv
        ∧ pv.map Prod.fst
            = trading_days_in (PriceProvider.mk [1, 2, 3] (fun _ _ => 10) ["X"]) 1 3
        ∧ List.Chain' (· < ·) (pv.map Prod.fst)) :=
  ⟨by decide, by decide, by decide,
    C3_series_shape (PriceProvider.mk [1, 2, 3] (fun _ _ => 10) ["X"])
      (OrderRec.mk 2 "X" "BUY" 1) [OrderRec.mk 3 "X" "SELL" 1] 100 0 0
      (by decide) (by decide) (by decide)⟩

/-- C4: on a trading day `d` with no order, the ledger row for `d` (the
state carried into the next day) equals the row for the preceding trading
day `dprev`, and if every traded symbol's price is unchanged from `dprev`
to `d` then the emitted snapshot value for `d` equals the one for `dprev`. -/
theorem C4_carry_forward (p : PriceProvider) (o0 : OrderRec) (orest : List OrderRec)
    (start_val commission impact : ℚ) (dprev d : Nat)
    (htd : sortedLt p.tradingDays = true)
    (hsym : ∀ o ∈ o0 :: orest, o.Symbol ∈ p.symUniverse)
    (hdate : ∀ o ∈ o0 :: orest,
      o.Date ∈ trading_days_in p (o0.Date - 1) (orest.getLastD o0).Date)
    (hdp : dprev ∈ trading_days_in p (o0.Date - 1) (orest.getLastD o0).Date)
    (hd : d ∈ trading_days_in p (o0.Date - 1) (orest.getLastD o0).Date)
    (hlt : dprev < d)
    (hadj : ∀ x ∈ trading_days_in p (o0.Date - 1) (orest.getLastD o0).Date,
      ¬(dprev < x ∧ x < d))
    (hnoord : ∀ o ∈ o0 :: orest, o.Date ≠ d) :
    ((run_portvals (mkInitState (o0 :: orest) p) start_val commission impact).1.data_3.cash d
      = (run_portvals (mkInitState (o0 :: orest) p)
          start_val commission impact).1.data_3.cash dprev)
    ∧ (∀ s,
        (run_portvals (mkInitState (o0 :: orest) p) start_val commission impact).1.data_3.val d s
          = (run_portvals (mkInitState (o0 :: orest) p)
              start_val commission impact).1.data_3.val dprev s)
    ∧ ((∀ s ∈ unique_symbols (o0 :: orest), p.price d s = p.price dprev s) →
        ∀ pv v vprev,
          compute_portvals p (o0 :: orest) start_val commission impact = .ok pv →
          (d, v) ∈ pv → (dprev, vprev) ∈ pv → v = vprev) := by
  obtain ⟨hser, hrows⟩ := run_portvals_char p o0 orest start_val commission impact htd hsym hdate
  have hdneq : ∀ o ∈ o0 :: orest,
      (decide (o.Date ≤ d) : Bool) = decide (o.Date ≤ dprev) := by
    intro o ho
    apply decide_eq_decide.2
    constructor
    · intro hle
      have hltd : o.Date < d := lt_of_le_of_ne hle (hnoord o ho)
      have := hadj o.Date (hdate o ho)
      by_contra hgt
      exact this ⟨lt_of_not_ge (fun hge => hgt (by exact hge)), hltd⟩
    · intro hle
      exact le_trans hle (le_of_lt hlt)
  have hccash : cum_cash p (o0 :: orest) start_val commission impact d
      = cum_cash p (o0 :: orest) start_val commission impact dprev := by
    rw [cum_cash, cum_cash, List.filter_congr hdneq]
  have hcpos : ∀ s, cum_pos (o0 :: orest) d s = cum_pos (o0 :: orest) dprev s := by
    intro s
    rw [cum_pos, cum_pos]
    have : ∀ o ∈ o0 :: orest,
        (decide (o.Date ≤ d) && decide (o.Symbol = s) : Bool)
          = (decide (o.Date ≤ dprev) && decide (o.Symbol = s)) := by
      intro o ho
      rw [hdneq o ho]
    rw [List.filter_congr this]
  refine ⟨?_, ?_, ?_⟩
  · rw [(hrows d hd).1, (hrows dprev hdp).1, hccash]
  · intro s
    rw [(hrows d hd).2 s, (hrows dprev hdp).2 s, hcpos s]
  · intro hpr pv v vprev hok hmem hmemp
    rw [compute_portvals, hser, Except.ok.injEq] at hok
    subst hok
    rcases List.mem_map.1 hmem with ⟨d1, _, hpair1⟩
    rcases List.mem_map.1 hmemp with ⟨d2, _, hpair2⟩
    have h1f : d1 = d := congrArg Prod.fst hpair1
    have h2f : d2 = dprev := congrArg Prod.fst hpair2
    have h1v : ((unique_symbols (o0 :: orest)).map (fun s =>
        p.price d1 s * cum_pos (o0 :: orest) d1 s)).sum
        + cum_cash p (o0 :: orest) start_val commission impact d1 = v :=
      congrArg Prod.snd hpair1
    have h2v : ((unique_symbols (o0 :: orest)).map (fun s =>
        p.price d2 s * cum_pos (o0 :: orest) d2 s)).sum
        + cum_cash p (o0 :: orest) start_val commission impact d2 = vprev :=
      congrArg Prod.snd hpair2
    rw [← h1v, ← h2v, h1f, h2f, hccash]
    congr 1
    apply congrArg
    apply List.map_congr_left
    intro s hs
    rw [hpr s hs, hcpos s]

theorem C4_carry_forward_witness :
    (sortedLt (PriceProvider.mk [1, 2, 3] (fun _ _ => 10) ["X"]).tradingDays = true)
    ∧ (∀ o ∈ [OrderRec.mk 1 "X" "BUY" 1, OrderRec.mk 3 "X" "SELL" 1],
        o.Symbol ∈ (PriceProvider.mk [1, 2, 3] (fun _ _ => 10) ["X"]).symUniverse)
    ∧ (∀ o ∈ [OrderRec.mk 1 "X" "BUY" 1, OrderRec.mk 3 "X" "SELL" 1],
        o.Date ∈ trading_days_in (PriceProvider.mk [1, 2, 3] (fun _ _ => 10) ["X"]) 0 3)
    ∧ (1 ∈ trading_days_in (PriceProvider.mk [1, 2, 3] (fun _ _ => 10) ["X"]) 0 3)
    ∧ (2 ∈ trading_days_in (PriceProvider.mk [1, 2, 3] (fun _ _ => 10) ["X"]) 0 3)
    ∧ (1 < 2)
    ∧ (∀ x ∈ trading_days_in (PriceProvider.mk [1, 2, 3] (fun _ _ => 10) ["X"]) 0 3,
        ¬(1 < x ∧ x < 2))
    ∧ (∀ o ∈ [OrderRec.mk 1 "X" "BUY" 1, OrderRec.mk 3 "X" "SELL" 1], o.Date ≠ 2)
    ∧ (((run_portvals (mkInitState [OrderRec.mk 1 "X" "BUY" 1, OrderRec.mk 3 "X" "SELL" 1]
            (PriceProvider.mk [1, 2, 3] (fun _ _ => 10) ["X"])) 100 0 0).1.data_3.cash 2
        = (run_portvals (mkInitState [OrderRec.mk 1 "X" "BUY" 1, OrderRec.mk 3 "X" "SELL" 1]
            (PriceProvider.mk [1, 2, 3] (fun _ _ => 10) ["X"])) 100 0 0).1.data_3.cash 1)
      ∧ (∀ s,
          (run_portvals (mkInitState [OrderRec.mk 1 "X" "BUY" 1, OrderRec.mk 3 "X" "SELL" 1]
              (PriceProvider.mk [1, 2, 3] (fun _ _ => 10) ["X"])) 100 0 0).1.data_3.val 2 s
            = (run_portvals (mkInitState [OrderRec.mk 1 "X" "BUY" 1, OrderRec.mk 3 "X" "SELL" 1]
                (PriceProvider.mk [1, 2, 3] (fun _ _ => 10) ["X"])) 100 0 0).1.data_3.val 1 s)
      ∧ ((∀ s ∈ unique_symbols [OrderRec.mk 1 "X" "BUY" 1, OrderRec.mk 3 "X" "SELL" 1],
            (PriceProvider.mk [1, 2, 3] (fun _ _ => 10) ["X"]).price 2 s
              = (PriceProvider.mk [1, 2, 3] (fun _ _ => 10) ["X"]).price 1 s) →
          ∀ pv v vprev,
            compute_portvals (PriceProvider.mk [1, 2, 3] (fun _ _ => 10) ["X"])
              [OrderRec.mk 1 "X" "BUY" 1, OrderRec.mk 3 "X" "SELL" 1] 100 0 0 = .ok pv →
            (2, v) ∈ pv → (1, vprev) ∈ pv → v = vprev)) :=
  ⟨by decide, by decide, by decide, by decide, by decide, by decide, by decide, by decide,
    C4_carry_forward (PriceProvider.mk [1, 2, 3] (fun _ _ => 10) ["X"])
      (OrderRec.mk 1 "X" "BUY" 1) [OrderRec.mk 3 "X" "SELL" 1] 100 0 0 1 2
      (by decide) (by decide) (by decide) (by decide) (by decide) (by decide)
      (by decide) (by decide)⟩

/-- C7 counterexample: an order sequence containing a row with negative
shares and a row whose side is neither BUY nor SELL is processed without
any error: no validation happens, the non-SELL side is treated as a BUY,
and a valuation series is returned. -/
theorem C7_counterexample :
    (compute_portvals (PriceProvider.mk [1, 2] (fun _ _ => 10) ["X"])
        [OrderRec.mk 1 "X" "BUY" 5, OrderRec.mk 2 "X" "HOLD" (-3)] 100 0 0
      = .ok [(1, 100), (2, 100)])
    ∧ (∃ o ∈ [OrderRec.mk 1 "X" "BUY" 5, OrderRec.mk 2 "X" "HOLD" (-3)], o.Shares ≤ 0)
    ∧ (∃ o ∈ [OrderRec.mk 1 "X" "BUY" 5, OrderRec.mk 2 "X" "HOLD" (-3)],
        ¬ o.Order = "BUY" ∧ ¬ o.Order = "SELL") := by
  refine ⟨?_, ?_, ?_⟩
  · norm_num [compute_portvals, run_portvals, mkInitState, get_data, trading_days_in,
      unique_symbols, pdUnique, apply_orders, calculate_data_2, data_3_loop,
      edit_data_3_rows, port_vals_series]
  · exact ⟨OrderRec.mk 2 "X" "HOLD" (-3), by decide, by decide⟩
  · exact ⟨OrderRec.mk 2 "X" "HOLD" (-3), by decide, by decide, by decide⟩

/-- C7 (amended): `compute_portvals` performs no order validation: a
sequence containing an order with shares ≤ 0 or with a side that is neither
BUY nor SELL is not rejected — the non-SELL side is applied as a BUY and the
non-positive share count is applied arithmetically — and, provided each
order's symbol and date are resolvable against the price provider, a
valuation series is still returned. -/
theorem C7_no_validation (p : PriceProvider) (o0 : OrderRec) (orest : List OrderRec)
    (start_val commission impact : ℚ)
    (hbad : ∃ o ∈ o0 :: orest,
      o.Shares ≤ 0 ∨ (¬ o.Order = "BUY" ∧ ¬ o.Order = "SELL"))
    (htd : sortedLt p.tradingDays = true)
    (hsym : ∀ o ∈ o0 :: orest, o.Symbol ∈ p.symUniverse)
    (hdate : ∀ o ∈ o0 :: orest,
      o.Date ∈ trading_days_in p (o0.Date - 1) (orest.getLastD o0).Date) :
    ∃ pv, compute_portvals p (o0 :: orest) start_val commission impact = .ok pv :=
  ⟨_, (run_portvals_char p o0 orest start_val commission impact htd hsym hdate).1⟩

theorem C7_no_validation_witness :
    (∃ o ∈ [OrderRec.mk 1 "X" "BUY" 5, OrderRec.mk 2 "X" "HOLD" (-3)],
      o.Shares ≤ 0 ∨ (¬ o.Order = "BUY" ∧ ¬ o.Order = "SELL"))
    ∧ (sortedLt (PriceProvider.mk [1, 2] (fun _ _ => 10) ["X"]).tradingDays = true)
    ∧ (∀ o ∈ [OrderRec.mk 1 "X" "BUY" 5, OrderRec.mk 2 "X" "HOLD" (-3)],
        o.Symbol ∈ (PriceProvider.mk [1, 2] (fun _ _ => 10) ["X"]).symUniverse)
    ∧ (∀ o ∈ [OrderRec.mk 1 "X" "BUY" 5, OrderRec.mk 2 "X" "HOLD" (-3)],
        o.Date ∈ trading_days_in (PriceProvider.mk [1, 2] (fun _ _ => 10) ["X"]) 0 2)
    ∧ (∃ pv, compute_portvals (PriceProvider.mk [1, 2] (fun _ _ => 10) ["X"])
        [OrderRec.mk 1 "X" "BUY" 5, OrderRec.mk 2 "X" "HOLD" (-3)] 100 0 0 = .ok pv) :=
  ⟨⟨OrderRec.mk 2 "X" "HOLD" (-3), by decide, by decide⟩, by decide, by decide, by decide,
    C7_no_validation (PriceProvider.mk [1, 2] (fun _ _ => 10) ["X"])
      (OrderRec.mk 1 "X" "BUY" 5) [OrderRec.mk 2 "X" "HOLD" (-3)] 100 0 0
      ⟨OrderRec.mk 2 "X" "HOLD" (-3), by decide, by decide⟩
      (by decide) (by decide) (by decide)⟩

/-- C8 counterexample: on the empty order sequence the computation does
fail and returns no series, but with the generic `IndexError` that
`orders_df.values[0, 0]` raises on an empty frame — not with a dedicated
`EmptyOrderListError`, which nothing in the code defines or raises. -/
theorem C8_counterexample :
    (compute_portvals (PriceProvider.mk [1] (fun _ _ => 1) ["X"]) [] 100 0 0
      = .error .indexError)
    ∧ SimError.indexError ≠ SimError.emptyOrderListError :=
  ⟨rfl, by decide⟩

/-- C8 (amended): for the empty order sequence `compute_portvals` fails
before producing any series — raising the generic `IndexError` from reading
the first order's date out of an empty values array, rather than a
dedicated `EmptyOrderListError` — for every provider and every parameter
choice. -/
theorem C8_empty_orders (p : PriceProvider) (start_val commission impact : ℚ) :
    compute_portvals p [] start_val commission impact = .error .indexError := rfl

lemma order_b_of_sell_filter (L : List OrderRec) :
    ∀ o ∈ L.filter (fun o => o.Order == "SELL"), order_b o = 1 := by
  intro o ho
  have h := (List.mem_filter.1 ho).2
  simp [order_b, h]

lemma order_b_of_buy_filter (L : List OrderRec) :
    ∀ o ∈ L.filter (fun o => !(o.Order == "SELL")), order_b o = -1 := by
  intro o ho
  have h := (List.mem_filter.1 ho).2
  rw [Bool.not_eq_true'] at h
  simp [order_b, h]

lemma run_portvals_unfold_badsym (p : PriceProvider) (o0 : OrderRec)
    (orest : List OrderRec) (start_val commission impact : ℚ) (sbad : String)
    (hfind : (unique_symbols (o0 :: orest)).find?
        (fun s => !(p.symUniverse.contains s)) = some sbad) :
    (run_portvals (mkInitState (o0 :: orest) p) start_val commission impact).2
      = .error (.unknownSymbolError sbad) := by
  simp only [run_portvals, mkInitState, get_data, hfind]

lemma run_portvals_unfold_nildays (p : PriceProvider) (o0 : OrderRec)
    (orest : List OrderRec) (start_val commission impact : ℚ)
    (hfind : (unique_symbols (o0 :: orest)).find?
        (fun s => !(p.symUniverse.contains s)) = none)
    (hDeq : trading_days_in p (o0.Date - 1) (orest.getLastD o0).Date = []) :
    (run_portvals (mkInitState (o0 :: orest) p) start_val commission impact).2
      = .error .indexError := by
  simp only [run_portvals, mkInitState, get_data, hfind, hDeq]

/-- C9 counterexample: for an order dated before the provider's earliest
price the computation fails with a pandas `KeyError` for that date — not
with a dedicated `MissingPriceDataError`, which nothing in the code defines
or raises. -/
theorem C9_counterexample :
    (compute_portvals (PriceProvider.mk [5, 6] (fun _ _ => 10) ["X"])
        [OrderRec.mk 4 "X" "BUY" 1, OrderRec.mk 6 "X" "SELL" 1] 100 0 0
      = .error (.keyError 4))
    ∧ SimError.keyError 4 ≠ SimError.missingPriceDataError := by
  constructor
  · norm_num [compute_portvals, run_portvals, mkInitState, get_data, trading_days_in,
      unique_symbols, pdUnique, apply_orders, calculate_data_2]
  · decide

/-- C9 (amended): an order dated strictly before the provider's earliest
trading day, or strictly after its latest, is never silently skipped: the
computation fails (with a `KeyError` on the missing price row, an
`IndexError` when the price index comes out empty, or an
`UnknownSymbolError` from the fetch — not with a dedicated
`MissingPriceDataError`) and no valuation series is returned. -/
theorem C9_missing_price (p : PriceProvider) (o0 : OrderRec) (orest : List OrderRec)
    (start_val commission impact : ℚ)
    (hbad : ∃ o ∈ o0 :: orest,
      (∀ td ∈ p.tradingDays, o.Date < td) ∨ (∀ td ∈ p.tradingDays, td < o.Date)) :
    ∃ e, compute_portvals p (o0 :: orest) start_val commission impact = .error e := by
  obtain ⟨o, ho, hout⟩ := hbad
  have hnotD : ∀ lo hi, o.Date ∉ trading_days_in p lo hi := by
    intro lo hi hmem
    have hm := List.mem_filter.1 hmem
    rcases hout with h | h
    · exact lt_irrefl _ (h o.Date hm.1)
    · exact lt_irrefl _ (h o.Date hm.1)
  rcases hf : (unique_symbols (o0 :: orest)).find?
      (fun s => !(p.symUniverse.contains s)) with _ | sbad
  · cases hDeq : trading_days_in p (o0.Date - 1) (orest.getLastD o0).Date with
    | nil =>
        exact ⟨.indexError, by
          rw [compute_portvals]
          exact run_portvals_unfold_nildays p o0 orest start_val commission impact hf hDeq⟩
    | cons d0 drest =>
        have hrun := run_portvals_unfold p o0 orest start_val commission impact d0 drest hf hDeq
        rw [apply_orders_eq_list impact commission 1
          ((o0 :: orest).filter (fun o => o.Order == "SELL")) _
          (order_b_of_sell_filter _)] at hrun
        split at hrun
        · rename_i st4 e heq
          exact ⟨e, by rw [compute_portvals, hrun]⟩
        · rename_i st4 heq4
          have hfst : (apply_order_list impact commission
              { orders := o0 :: orest, provider := p,
                data_1 := { days := d0 :: drest, val := p.price, cash := fun _ => 1 },
                data_2 := { days := d0 :: drest, val := fun _ _ => 0, cash := fun _ => 0 },
                data_3 := { days := d0 :: drest, val := fun _ _ => 0,
                            cash := fun d => if d = d0 then start_val else 0 } }
              ((o0 :: orest).filter (fun o => o.Order == "SELL"))).1 = st4 :=
            congrArg Prod.fst heq4
          have hS_orders : st4.orders = o0 :: orest := by
            rw [← hfst]
            exact (apply_order_list_fields impact commission _ _).1
          have hS_days : st4.data_2.days = d0 :: drest := by
            rw [← hfst]
            exact (apply_order_list_fields impact commission _ _).2.2.2.2
          have hosell : o ∉ (o0 :: orest).filter (fun o => o.Order == "SELL") := by
            intro hin
            obtain ⟨e, he⟩ := apply_order_list_stops impact commission
              ((o0 :: orest).filter (fun o => o.Order == "SELL"))
              { orders := o0 :: orest, provider := p,
                data_1 := { days := d0 :: drest, val := p.price, cash := fun _ => 1 },
                data_2 := { days := d0 :: drest, val := fun _ _ => 0, cash := fun _ => 0 },
                data_3 := { days := d0 :: drest, val := fun _ _ => 0,
                            cash := fun d => if d = d0 then start_val else 0 } }
              ⟨o, hin, hDeq ▸ hnotD (o0.Date - 1) (orest.getLastD o0).Date⟩
            rw [heq4] at he
            exact absurd he (by simp)
          have hobuy : o ∈ (o0 :: orest).filter (fun o => !(o.Order == "SELL")) := by
            rw [List.mem_filter]
            refine ⟨ho, ?_⟩
            cases hOS : (o.Order == "SELL") with
            | true => exact absurd (List.mem_filter.2 ⟨ho, hOS⟩) hosell
            | false => simp
          rw [hS_orders] at hrun
          rw [apply_orders_eq_list impact commission (-1)
            ((o0 :: orest).filter (fun o => !(o.Order == "SELL"))) _
            (order_b_of_buy_filter _)] at hrun
          split at hrun
          · rename_i st5 e heq
            exact ⟨e, by rw [compute_portvals, hrun]⟩
          · rename_i st5 heq5
            obtain ⟨e, he⟩ := apply_order_list_stops impact commission
              ((o0 :: orest).filter (fun o => !(o.Order == "SELL"))) st4
              ⟨o, hobuy, by
                rw [hS_days]
                exact hDeq ▸ hnotD (o0.Date - 1) (orest.getLastD o0).Date⟩
            rw [heq5] at he
            exact absurd he (by simp)
  · exact ⟨.unknownSymbolError sbad, by
      rw [compute_portvals]
      exact run_portvals_unfold_badsym p o0 orest start_val commission impact sbad hf⟩

theorem C9_missing_price_witness :
    (∃ o ∈ [OrderRec.mk 4 "X" "BUY" 1, OrderRec.mk 6 "X" "SELL" 1],
      (∀ td ∈ (PriceProvider.mk [5, 6] (fun _ _ => 10) ["X"]).tradingDays, o.Date < td)
      ∨ (∀ td ∈ (PriceProvider.mk [5, 6] (fun _ _ => 10) ["X"]).tradingDays, td < o.Date))
    ∧ (∃ e, compute_portvals (PriceProvider.mk [5, 6] (fun _ _ => 10) ["X"])
        [OrderRec.mk 4 "X" "BUY" 1, OrderRec.mk 6 "X" "SELL" 1] 100 0 0 = .error e) :=
  ⟨⟨OrderRec.mk 4 "X" "BUY" 1, by decide, Or.inl (by decide)⟩,
    C9_missing_price (PriceProvider.mk [5, 6] (fun _ _ => 10) ["X"])
      (OrderRec.mk 4 "X" "BUY" 1) [OrderRec.mk 6 "X" "SELL" 1] 100 0 0
      ⟨OrderRec.mk 4 "X" "BUY" 1, by decide, Or.inl (by decide)⟩⟩

lemma apply_orders_fields (i c b : ℚ) :
    ∀ (L : List OrderRec) (st : PVState),
      ((apply_orders i c b st L).1.orders = st.orders)
      ∧ ((apply_orders i c b st L).1.provider = st.provider) := by
  intro L
  induction L with
  | nil => intro st; rw [apply_orders]; exact ⟨rfl, rfl⟩
  | cons o rest ih =>
      intro st
      have hf := calculate_fields st o.Date o.Symbol o.Shares i c b
      rcases hc : calculate_data_2 st o.Date o.Symbol o.Shares i c b with ⟨st', e⟩
      rw [hc] at hf
      rcases e with _ | e <;> rw [apply_orders, hc]
      · obtain ⟨i1, i2⟩ := ih st'
        exact ⟨i1.trans hf.1, i2.trans hf.2.1⟩
      · exact ⟨hf.1, hf.2.1⟩

/-- C10: the run mutates only the three local frames it creates: for every
input state — whatever the orders, the provider and the outcome — the
caller-owned orders dataframe and price provider held in the state are the
same objects after `run_portvals` (and hence after `compute_portvals`) as
before, down to every record and every price entry. -/
theorem C10_inputs_read_only (st : PVState) (start_val commission impact : ℚ) :
    ((run_portvals st start_val commission impact).1.orders = st.orders)
    ∧ ((run_portvals st start_val commission impact).1.provider = st.provider) := by
  rw [run_portvals]
  split
  · exact ⟨rfl, rfl⟩
  rename_i o0 orest horders
  dsimp only
  split
  · exact ⟨rfl, rfl⟩
  rename_i f1 hg1
  split
  · exact ⟨rfl, rfl⟩
  rename_i f2 hg2
  split
  · exact ⟨rfl, rfl⟩
  rename_i f3 hg3
  split
  · exact ⟨rfl, rfl⟩
  rename_i d0 drest hdays
  split
  · rename_i st4 e heq
    have hfst := congrArg Prod.fst heq
    dsimp only at hfst
    rw [← hfst]
    exact ⟨(apply_orders_fields impact commission 1 _ _).1,
      (apply_orders_fields impact commission 1 _ _).2⟩
  · rename_i st4 heq4
    have hfst4 := congrArg Prod.fst heq4
    dsimp only at hfst4
    have h4o : st4.orders = st.orders := by
      rw [← hfst4]
      exact (apply_orders_fields impact commission 1 _ _).1
    have h4p : st4.provider = st.provider := by
      rw [← hfst4]
      exact (apply_orders_fields impact commission 1 _ _).2
    split
    · rename_i st5 e heq5
      have hfst5 := congrArg Prod.fst heq5
      dsimp only at hfst5
      rw [← hfst5]
      exact ⟨((apply_orders_fields impact commission (-1) _ _).1).trans h4o,
        ((apply_orders_fields impact commission (-1) _ _).2).trans h4p⟩
    · rename_i st5 heq5
      have hfst5 := congrArg Prod.fst heq5
      dsimp only at hfst5
      rw [← hfst5]
      exact ⟨((apply_orders_fields impact commission (-1) _ _).1).trans h4o,
        ((apply_orders_fields impact commission (-1) _ _).2).trans h4p⟩
